import Mathlib

/-!
Verification of the SHALLFS journal engine (shallow embedding).

The definitions below are translated from the C sources:
  - shallfs/device.c        (superblock codec, ring addressing, read/write)
  - shallfs/log.c           (commit buffer, append, overflow, consumers)
  - shallfs/super.c         (mount-time superblock selection and state init)
  - tools/shallfs-common.c  (userspace superblock consistency check)
  - include/shallfs/device.h, shallfs/shallfs.h (structures and constants)

Machine integers are modelled as Nat (sizes, counters, little-endian words)
and Int (return values, operation codes).  Physical block I/O is modelled
by a byte function carried in the state; I/O never fails in the model
(the C error paths for failed buffer_head reads are not taken).
-/

set_option maxRecDepth 10000
set_option maxHeartbeats 2000000

namespace Shallfs

/-! ## Constants from include/shallfs/device.h and shallfs/shallfs.h -/

def SHALL_DEV_BLOCK : Nat := 4096

/-- Size of struct shall_devheader (32 bytes). -/
def HEADER_SIZE : Nat := 32

/-- Size of struct shall_devcreds (48 bytes). -/
def CREDS_SIZE : Nat := 48

/-- Superblock flags from include/shallfs/device.h. -/
def SHALL_SB_VALID : Nat := 0x0001
def SHALL_SB_DIRTY : Nat := 0x0002
def SHALL_SB_UPDATE : Nat := 0x0004

/-- Mount-option flag bits from shallfs/shallfs.h (enum shall_flags). -/
def OVERFLOW_DROP : Nat := 0x0000
def OVERFLOW_WAIT : Nat := 0x0001
def OVERFLOW_MASK : Nat := 0x0001
def TOO_BIG_LOG : Nat := 0x0000
def TOO_BIG_ERROR : Nat := 0x0008
def TOO_BIG_MASK : Nat := 0x0008

/-- The log flag bits of enum shall_log_flags, from the header
include/shallfs/operation.h (found concatenated at the tail of
src/unnamed/part_008): FILE1=0x0001, FILE2=0x0002, CREDS=0x0004,
FILEID=0x0100, ATTR=0x0200, XATTR=0x0400, REGION=0x0800, SIZE=0x1000,
ACL=0x2000, HASH=0x4000, DATA=0x8000, DMASK=0xff00; NODATA=0 denotes
the absence of any of these bits.  The values also match spec
section 6 bit for bit. -/
def SHALL_LOG_NODATA : Nat := 0x0000
def SHALL_LOG_FILE1 : Nat := 0x0001
def SHALL_LOG_FILE2 : Nat := 0x0002
def SHALL_LOG_CREDS : Nat := 0x0004
def SHALL_LOG_FILEID : Nat := 0x0100
def SHALL_LOG_ATTR : Nat := 0x0200
def SHALL_LOG_XATTR : Nat := 0x0400
def SHALL_LOG_REGION : Nat := 0x0800
def SHALL_LOG_SIZE : Nat := 0x1000
def SHALL_LOG_ACL : Nat := 0x2000
def SHALL_LOG_HASH : Nat := 0x4000
def SHALL_LOG_DATA : Nat := 0x8000
def SHALL_LOG_DMASK : Nat := 0xFF00

/-- Operation codes of enum shall_operation, from the header
include/shallfs/operation.h (found concatenated at the tail of
src/unnamed/part_008): numbered from SHALL_MOUNT = 0x01 in the order
MOUNT, REMOUNT, UMOUNT, OVERFLOW, RECOVER, TOO_BIG, ...; the same
assignment as spec section 6. -/
def SHALL_MOUNT : Int := 1
def SHALL_REMOUNT : Int := 2
def SHALL_UMOUNT : Int := 3
def SHALL_OVERFLOW : Int := 4
def SHALL_RECOVER : Int := 5
def SHALL_TOO_BIG : Int := 6

/-- Linux errno values used by the engine. -/
def EIO : Int := 5
def EAGAIN : Int := 11
def EFAULT : Int := 14
def EBUSY : Int := 16
def EINVAL : Int := 22
def EFBIG : Int := 27
def ERESTARTSYS : Int := 512

/-! ## Little-endian byte encoding and crc32_le -/

/-- Little-endian encoding of a 32-bit value into 4 bytes. -/
def le32 (n : Nat) : List Nat :=
  [n % 256, n / 256 % 256, n / 65536 % 256, n / 16777216 % 256]

/-- Little-endian encoding of a 64-bit value into 8 bytes. -/
def le64 (n : Nat) : List Nat :=
  le32 (n % 4294967296) ++ le32 (n / 4294967296 % 4294967296)

/-- Encode an Int as its 32-bit two's-complement little-endian bytes. -/
def le32i (i : Int) : List Nat := le32 (i % 4294967296).toNat

/-- Read a 32-bit little-endian value out of a byte list at an offset. -/
def readLe32 (b : List Nat) (off : Nat) : Nat :=
  b.getD off 0 + 256 * b.getD (off+1) 0 + 65536 * b.getD (off+2) 0 +
    16777216 * b.getD (off+3) 0

/-- Read a 64-bit little-endian value out of a byte list at an offset. -/
def readLe64 (b : List Nat) (off : Nat) : Nat :=
  readLe32 b off + 4294967296 * readLe32 b (off+4)

/-- Decode a 32-bit word as a signed value. -/
def int32_of (n : Nat) : Int :=
  if n < 2147483648 then (n : Int) else (n : Int) - 4294967296

/-- One step of the reflected CRC-32 (polynomial 0xEDB88320), as computed
by the kernel's crc32_le. -/
def crc32_bit (crc : Nat) : Nat :=
  if crc % 2 = 1 then (crc / 2) ^^^ 0xEDB88320 else crc / 2

def crc32_byte (crc byte : Nat) : Nat :=
  crc32_bit (crc32_bit (crc32_bit (crc32_bit
    (crc32_bit (crc32_bit (crc32_bit (crc32_bit (crc ^^^ byte % 256))))))))

/-- crc32_le of a byte list with a given starting value, as used by
checksum_super and checksum_header (starting value 0x4c414853, "SHAL"). -/
def crc32_le (seed : Nat) (bytes : List Nat) : Nat :=
  bytes.foldl crc32_byte seed

/-! ## Superblock locations (shallfs/device.h and tools/shallfs-common.h) -/

/-- Kernel shall_superblock_location: block number of superblock n,
n * 4 * (4*n + 1) = 16 n^2 + 4 n device blocks. -/
def shall_superblock_location (n : Nat) : Nat := n * 4 * (4 * n + 1)

/-- Userspace tools' shall_superblock_location: the byte offset of the
superblock structure, n * 4 * SHALL_DEV_BLOCK * (4*n + 1) + SHALL_SB_OFFSET
where SHALL_SB_OFFSET = 4096 - 1024 = 3072. -/
def tools_superblock_location (n : Nat) : Nat :=
  n * 4 * SHALL_DEV_BLOCK * (4 * n + 1) + 3072

/-! ## Ring buffer addressing (shallfs/device.c) -/

/-- Physical device pointer, struct shall_devptr from shallfs/shallfs.h. -/
structure DevPtr where
  block : Nat
  next_super : Nat
  offset : Nat
  n_super : Nat
  deriving DecidableEq, Repr

/-- Loop body of shall_calculate_block: walk superblock intervals upward,
subtracting the data blocks between consecutive superblocks.  Returns
(remain, result, nsb).  The fuel is ns - nsb, matching the loop bound. -/
def calc_loop (remain prev result nsb : Nat) : Nat → Nat × Nat × Nat
  | 0 => (remain, result, nsb)
  | fuel+1 =>
    if remain = 0 then (remain, result, nsb)
    else
      let t := shall_superblock_location nsb
      let diff := t - prev - 1
      if remain < diff then (remain, result, nsb)
      else calc_loop (remain - diff) t (result + diff + 1) (nsb + 1) fuel

/-- shall_calculate_block from shallfs/device.c: map a logical ring offset
p (with ns superblocks) to the physical device block containing it. -/
def shall_calculate_block (p ns : Nat) : DevPtr :=
  let r := calc_loop (p / SHALL_DEV_BLOCK) 0 1 1 (ns - 1)
  { block := r.2.1 + r.1
    offset := p % SHALL_DEV_BLOCK
    n_super := r.2.2
    next_super := if r.2.2 < ns then shall_superblock_location r.2.2 else 0 }

/-- inc_block from shallfs/device.c: advance a physical pointer by one
device block, skipping the next superblock block and wrapping to block 1
when reaching maxptr.block. -/
def inc_block (b0 maxptr : DevPtr) : DevPtr :=
  let b := { b0 with block := b0.block + 1 }
  let b := if b.block ≥ maxptr.block then { b with block := 1, n_super := 1 } else b
  let b :=
    if b.n_super < maxptr.n_super ∧ b.block = b.next_super then
      let b := { b with block := b.block + 1, n_super := b.n_super + 1 }
      if b.block ≥ maxptr.block then { b with block := 1, n_super := 1 } else b
    else b
  if b.n_super < maxptr.n_super then
    { b with next_super := shall_superblock_location b.n_super }
  else
    { b with next_super := 0 }

/-! ## Superblock codec (include/shallfs/device.h, shallfs/device.c,
tools/shallfs-common.c) -/

/-- Bytes of the magic string "SHALL 01". -/
def SHALL_SB_MAGIC : List Nat := [83, 72, 65, 76, 76, 32, 48, 49]

/-- Decoded on-disk superblock, struct shall_devsuper. -/
structure DevSuper where
  magic1 : List Nat
  device_size : Nat
  data_space : Nat
  data_start : Nat
  data_length : Nat
  max_length : Nat
  version : Nat
  flags : Nat
  alignment : Nat
  num_superblocks : Nat
  this_superblock : Nat
  new_size : Nat
  new_alignment : Nat
  new_superblocks : Nat
  magic2 : List Nat
  checksum : Nat
  deriving Repr

/-- The checksummed region of a superblock: the 1020 bytes preceding the
checksum field (shall_superblock_checksize = offsetof checksum). -/
def devsuper_checkbytes (ds : DevSuper) : List Nat :=
  (ds.magic1.takeD 8 0) ++ le64 ds.device_size ++ le64 ds.data_space ++
    le64 ds.data_start ++ le64 ds.data_length ++ le64 ds.max_length ++
    le64 ds.version ++ le32 ds.flags ++ le32 ds.alignment ++
    le32 ds.num_superblocks ++ le32 ds.this_superblock ++
    List.replicate 696 0 ++ le64 ds.new_size ++ le32 ds.new_alignment ++
    le32 ds.new_superblocks ++ List.replicate 228 0 ++ (ds.magic2.takeD 8 0)

/-- checksum_super from shallfs/device.c: crc32_le with seed 0x4c414853
over the superblock bytes up to the checksum field. -/
def checksum_super (ds : DevSuper) : Nat :=
  crc32_le 0x4c414853 (devsuper_checkbytes ds)

/-- shall_read_superblock from shallfs/device.c, the validation part:
all checks applied in source order to superblock n of a device whose
physical size is physical_size.  Returns true when the superblock is
accepted (the function returns 0), false when any check fails (-EINVAL). -/
def shall_read_superblock_valid (ds : DevSuper) (physical_size : Nat)
    (n : Nat) : Bool :=
  checksum_super ds = ds.checksum ∧
  ds.this_superblock = n ∧
  ds.magic1.takeD 8 0 = SHALL_SB_MAGIC ∧
  ds.magic2.takeD 8 0 = SHALL_SB_MAGIC ∧
  ds.flags &&& SHALL_SB_VALID ≠ 0 ∧
  ds.device_size ≤ physical_size ∧
  ds.device_size % SHALL_DEV_BLOCK = 0 ∧
  ds.device_size ≥ 65536 ∧
  ds.num_superblocks > 8 ∧
  ds.data_space + SHALL_DEV_BLOCK * ds.num_superblocks = ds.device_size ∧
  ds.data_start < ds.data_space ∧
  ds.data_length ≤ ds.data_space ∧
  ds.data_length ≤ ds.max_length ∧
  ds.max_length ≤ ds.data_space ∧
  ds.alignment % 8 = 0 ∧
  ds.alignment ≥ 8 ∧
  ¬ (SHALL_DEV_BLOCK *
       shall_superblock_location (ds.num_superblocks - 1) + 1024 ≥
     ds.device_size)

/-- All checks of shall_read_superblock except the final last-superblock
location check; used to state claim C3 about that check in isolation. -/
def shall_read_superblock_other_checks (ds : DevSuper) (physical_size : Nat)
    (n : Nat) : Bool :=
  checksum_super ds = ds.checksum ∧
  ds.this_superblock = n ∧
  ds.magic1.takeD 8 0 = SHALL_SB_MAGIC ∧
  ds.magic2.takeD 8 0 = SHALL_SB_MAGIC ∧
  ds.flags &&& SHALL_SB_VALID ≠ 0 ∧
  ds.device_size ≤ physical_size ∧
  ds.device_size % SHALL_DEV_BLOCK = 0 ∧
  ds.device_size ≥ 65536 ∧
  ds.num_superblocks > 8 ∧
  ds.data_space + SHALL_DEV_BLOCK * ds.num_superblocks = ds.device_size ∧
  ds.data_start < ds.data_space ∧
  ds.data_length ≤ ds.data_space ∧
  ds.data_length ≤ ds.max_length ∧
  ds.max_length ≤ ds.data_space ∧
  ds.alignment % 8 = 0 ∧
  ds.alignment ≥ 8

/-! ### Userspace consistency check (tools/shallfs-common.c) -/

/-- Defect bits of shall_check_t from tools' shallfs-common.h. -/
def shall_check_novalid : Nat := 0x00000001
def shall_check_ioerr : Nat := 0x00000002
def shall_check_toobig : Nat := 0x00000004
def shall_check_toosmall : Nat := 0x00000008
def shall_check_nonblock : Nat := 0x00000010
def shall_check_dataspace : Nat := 0x00000020
def shall_check_datastart : Nat := 0x00000040
def shall_check_datalength : Nat := 0x00000080
def shall_check_maxlength : Nat := 0x00000100
def shall_check_alignment : Nat := 0x00000200
def shall_check_lastsb : Nat := 0x00000400
def shall_check_flags : Nat := 0x00000800

/-- Decoded shall_sb_data_t fields used by shall_check_sb. -/
structure SbData where
  device_size : Nat
  data_space : Nat
  data_start : Nat
  data_length : Nat
  max_length : Nat
  flags : Nat
  num_superblocks : Nat
  this_superblock : Nat
  alignment : Nat
  deriving Repr

/-- A conditional defect bit. -/
def checkBit (c : Bool) (bit : Nat) : Nat := if c then bit else 0

/-- shall_check_sb from tools/shallfs-common.c: the bitmask of defects
signalled on a decoded superblock, with eod the device size found by
seeking to the end (the I/O error arm of the lseek is not modelled,
eod > 0 is assumed as in a successful run).  The intermediate dspace is
an off_t in the source and can go negative, so it is computed in Int.
The unknown-flag-bits test "flags & ~(VALID|DIRTY|UPDATE)" is equivalent
to flags ≥ 8 for the non-negative modelled flags word. -/
def shall_check_sb (sb : SbData) (eod : Nat) : Nat :=
  let dspace : Int :=
    (sb.device_size : Int) - SHALL_DEV_BLOCK * sb.num_superblocks
  checkBit (sb.flags &&& SHALL_SB_VALID = 0) shall_check_novalid |||
  checkBit (sb.flags ≥ 8) shall_check_flags |||
  checkBit (sb.device_size > eod) shall_check_toobig |||
  checkBit (sb.device_size % SHALL_DEV_BLOCK ≠ 0) shall_check_nonblock |||
  checkBit (sb.device_size < 65536) shall_check_toosmall |||
  checkBit (sb.num_superblocks ≤ 8) shall_check_toosmall |||
  checkBit ((sb.data_space : Int) ≠ dspace) shall_check_dataspace |||
  checkBit ((sb.data_start : Int) ≥ dspace) shall_check_datastart |||
  checkBit ((sb.data_length : Int) > dspace) shall_check_datalength |||
  checkBit (sb.max_length < sb.data_length) shall_check_maxlength |||
  checkBit ((sb.max_length : Int) > dspace) shall_check_maxlength |||
  checkBit (sb.alignment % 8 ≠ 0) shall_check_alignment |||
  checkBit (sb.alignment < 8) shall_check_alignment |||
  checkBit (tools_superblock_location (sb.num_superblocks - 1) + 1024 >
      sb.device_size)
    shall_check_lastsb

/-! ## Mount-time superblock selection (shallfs/super.c, shall_fill_super) -/

/-- search_superblock from shallfs/super.c: scan n = 1, 2, ... until the
superblock location reaches the end of the device (failure) or a valid
superblock is found.  The device is modelled as the function sbs giving
the decoded superblock stored at each slot.  The fuel bounds the scan;
limit device blocks suffice since location n grows at least linearly. -/
def search_loop (sbs : Nat → DevSuper) (physical_size limit n : Nat) :
    Nat → Option Nat
  | 0 => none
  | fuel+1 =>
    if shall_superblock_location n ≥ limit then none
    else if shall_read_superblock_valid (sbs n) physical_size n then some n
    else search_loop sbs physical_size limit (n + 1) fuel

def search_superblock (sbs : Nat → DevSuper) (physical_size : Nat) :
    Option Nat :=
  let limit := physical_size / SHALL_DEV_BLOCK
  search_loop sbs physical_size limit 1 (limit + 1)

/-- The superblock-selection prefix of shall_fill_super from
shallfs/super.c: read superblock 0; if it is invalid scan the alternates;
then refuse with -EAGAIN if the selected superblock carries the UPDATE
flag.  Returns 0 when mount proceeds past this point, or the negated
errno when it is refused here. -/
def shall_fill_super_select (sbs : Nat → DevSuper) (physical_size : Nat) :
    Int :=
  let sel : Option Nat :=
    if shall_read_superblock_valid (sbs 0) physical_size 0 then some 0
    else search_superblock sbs physical_size
  sel.elim (-EINVAL) (fun n =>
    if (sbs n).flags &&& SHALL_SB_UPDATE ≠ 0 then -EAGAIN else 0)

/-! ## Engine state (shallfs/shallfs.h)

The commit-engine state of one mounted instance: mount options, the
read-only geometry, struct shall_sbinfo_rw_read, the write-side scalars
of struct shall_sbinfo_rw_other, and the overflow queue counters of
struct shall_logqueue.  The concurrency fields (mutex, wait queues,
atomics) have no effect on the sequential state transitions modelled
here and are omitted; a timestamp is passed explicitly where the code
reads current_kernel_time().  The commit buffer is modelled as the list
of bytes stored at indexes 0 ..< buffer_written (the C array keeps stale
bytes past the reset points, but they are never read).  The block device
is a byte function; writes override it, superblock writes are recorded
in the ghost list sb_writes (most recent first). -/

structure Timespec where
  sec : Nat
  nsec : Nat
  deriving DecidableEq, Repr

structure EngineOptions where
  commit_seconds : Nat
  commit_size : Nat
  flags : Nat
  deriving DecidableEq, Repr

structure RoInfo where
  device_size : Nat
  data_space : Nat
  num_superblocks : Nat
  log_alignment : Nat
  sb_flags : Nat
  maxptr : DevPtr
  deriving DecidableEq, Repr

/-- struct shall_sbinfo_rw_read: the part saved and restored as one blob
by the consumer paths. -/
structure RwRead where
  data_start : Nat
  data_length : Nat
  committed : Nat
  startptr : DevPtr
  commitptr : DevPtr
  buffer_written : Nat
  buffer_read : Nat
  deriving DecidableEq, Repr

structure RwOther where
  last_commit : Nat
  last_sb_written : Nat
  max_length : Nat
  version : Nat
  logged : Nat
  commit_buffer : List Nat
  deriving DecidableEq, Repr

/-- struct shall_logqueue counters (protected by the queue lock). -/
structure LogQueue where
  num_dropped : Nat
  extra_space : Nat
  deriving DecidableEq, Repr

structure FsInfo where
  options : EngineOptions
  ro : RoInfo
  read : RwRead
  other : RwOther
  lq : LogQueue
  device : Nat → Nat → Nat
  sb_writes : List Nat

/-- IS_DROP from shallfs/shallfs.h. -/
def IS_DROP (fi : FsInfo) : Bool :=
  fi.options.flags &&& OVERFLOW_MASK = OVERFLOW_DROP

/-- IS_ERROR from shallfs/shallfs.h (TOO_BIG policy is error). -/
def IS_ERROR (fi : FsInfo) : Bool :=
  fi.options.flags &&& TOO_BIG_MASK ≠ TOO_BIG_LOG

/-- logsize from shallfs/log.c: round a length up to the log alignment
(roundup from linux/kernel.h). -/
def logsize (alignment l : Nat) : Nat := (l + alignment - 1) / alignment * alignment

/-! ## Log record header codec (include/shallfs/device.h, shallfs/log.c) -/

/-- Decoded struct shall_devheader. -/
structure DevHeader where
  next_header : Nat
  operation : Int
  req_sec : Nat
  req_nsec : Nat
  result : Int
  flags : Nat
  checksum : Nat
  deriving DecidableEq, Repr

/-- The 28 checksummed bytes of a header (shall_devheader_checksize). -/
def header_checkbytes (h : DevHeader) : List Nat :=
  le32 h.next_header ++ le32i h.operation ++ le64 h.req_sec ++
    le32 h.req_nsec ++ le32i h.result ++ le32 h.flags

/-- checksum_header from shallfs/log.c. -/
def checksum_header (h : DevHeader) : Nat :=
  crc32_le 0x4c414853 (header_checkbytes h)

/-- The full 32 on-disk bytes of a header. -/
def header_bytes (h : DevHeader) : List Nat :=
  header_checkbytes h ++ le32 h.checksum

/-- Build a header the way the engine does: fill the fields, then store
the crc of the first 28 bytes in the checksum field. -/
def mk_header (next_header : Nat) (operation : Int) (now : Timespec)
    (result : Int) (flags : Nat) : DevHeader :=
  let h : DevHeader :=
    { next_header := next_header, operation := operation,
      req_sec := now.sec, req_nsec := now.nsec, result := result,
      flags := flags, checksum := 0 }
  { h with checksum := checksum_header h }

/-- Decode 32 bytes into a header (the le32/le64 reads done by the
consumers on struct shall_devheader). -/
def decode_header (b : List Nat) : DevHeader :=
  { next_header := readLe32 b 0
    operation := int32_of (readLe32 b 4)
    req_sec := readLe64 b 8
    req_nsec := readLe32 b 16
    result := int32_of (readLe32 b 20)
    flags := readLe32 b 24
    checksum := readLe32 b 28 }

/-- struct shall_devcreds (six 64-bit ids). -/
structure DevCreds where
  uid : Nat
  euid : Nat
  fsuid : Nat
  gid : Nat
  egid : Nat
  fsgid : Nat
  deriving DecidableEq, Repr

def creds_bytes (c : DevCreds) : List Nat :=
  le64 c.uid ++ le64 c.euid ++ le64 c.fsuid ++
    le64 c.gid ++ le64 c.egid ++ le64 c.fsgid

/-! ## Commit buffer primitives (shallfs/log.c) -/

/-- add_blob from shallfs/log.c: copy bytes into the commit buffer at
buffer_written and grow buffer_written and data_length.  The C code
calls BUG() when the blob does not fit (callers guarantee space via
need_commit); the model leaves the state unchanged at that unreachable
point.  Like the C char array, the modelled byte list keeps any stale
bytes past the index-reset points, so the consumer save-and-restore of
the buffer indexes stays sound; add_blob overwrites from buffer_written
onward. -/
def add_blob (fi : FsInfo) (data : List Nat) : FsInfo :=
  if data.length > 0 then
    if fi.read.buffer_written + data.length > fi.options.commit_size then fi
    else
      { fi with
        other.commit_buffer :=
          fi.other.commit_buffer.take fi.read.buffer_written ++ data
        read.buffer_written := fi.read.buffer_written + data.length
        read.data_length := fi.read.data_length + data.length }
  else fi

/-- add_padding from shallfs/log.c: zero bytes, added through add_blob
in chunks of at most 64 (sizeof pad_zero). -/
def add_padding_loop (fi : FsInfo) (len : Nat) : Nat → FsInfo
  | 0 => fi
  | fuel+1 =>
    if len > 0 then
      let td := min len 64
      add_padding_loop (add_blob fi (List.replicate td 0)) (len - td) fuel
    else fi

def add_padding (fi : FsInfo) (len : Nat) : FsInfo :=
  add_padding_loop fi len len

/-! ## Device write path (shallfs/device.c) -/

/-- Override device bytes: write the given bytes at (block, offset). -/
def dev_write (dev : Nat → Nat → Nat) (block offset : Nat)
    (bytes : List Nat) : Nat → Nat → Nat :=
  fun b o =>
    if b = block ∧ offset ≤ o ∧ o < offset + bytes.length then
      bytes.getD (o - offset) 0
    else dev b o

/-- shall_write_superblock from shallfs/device.c, as visible to the
engine state: the index written is recorded in the ghost list sb_writes
(the encoded superblock content on the device is not read back by any
modelled operation and is elided).  Always succeeds. -/
def shall_write_superblock (fi : FsInfo) (n : Nat) : FsInfo :=
  { fi with sb_writes := n :: fi.sb_writes }

/-- The todo computation of one pass of the shall_write_data loop: the
rest of the current device block, clamped to the uncommitted bytes. -/
def write_todo (fi : FsInfo) : Nat :=
  min (SHALL_DEV_BLOCK - fi.read.commitptr.offset)
    (fi.read.data_length - fi.read.committed)

/-- One pass of the shall_write_data loop: record the commit intent
(advance buffer_read, commitptr and committed) and perform the device
write of the block fraction. -/
def write_step (fi : FsInfo) : FsInfo :=
  let offset := fi.read.commitptr.offset
  let block := fi.read.commitptr.block
  let todo := write_todo fi
  let bytes := (List.range todo).map
    (fun i => fi.other.commit_buffer.getD (fi.read.buffer_read + i) 0)
  let fi :=
    { fi with
      read.buffer_read := fi.read.buffer_read + todo
      read.commitptr.offset := fi.read.commitptr.offset + todo
      read.committed := fi.read.committed + todo }
  let fi :=
    if fi.read.commitptr.offset ≥ SHALL_DEV_BLOCK then
      let cp := { fi.read.commitptr with
                  offset := fi.read.commitptr.offset - SHALL_DEV_BLOCK }
      { fi with read.commitptr := inc_block cp fi.ro.maxptr }
    else fi
  { fi with device := dev_write fi.device block offset bytes }

/-- The completion pass of shall_write_data: stamp last_commit, reset the
buffer indexes, and when at least one block was written bump version,
rotate last_sb_written inside [1, num_superblocks) and write that single
superblock. -/
def write_finish (fi : FsInfo) (done : Bool) (now : Timespec) : FsInfo :=
  let fi :=
    { fi with
      other.last_commit := now.sec
      read.buffer_read := 0
      read.buffer_written := 0 }
  if done then
    let n_sb0 := fi.other.last_sb_written + 1
    let fi := { fi with other.version := fi.other.version + 1 }
    if n_sb0 ≥ fi.ro.num_superblocks then
      shall_write_superblock { fi with other.last_sb_written := 1 } 1
    else
      shall_write_superblock { fi with other.last_sb_written := n_sb0 } n_sb0
  else fi

/-- The loop of shall_write_data from shallfs/device.c.  Each pass either
finds everything committed (write_finish) or commits the next block
fraction (write_step).  Fuel data_length + 1 is enough because committed
grows by at least one byte per pass. -/
def write_loop (fi : FsInfo) (done : Bool) (now : Timespec) :
    Nat → Int × FsInfo
  | 0 => (0, fi)
  | fuel+1 =>
    if fi.read.committed ≥ fi.read.data_length then
      (0, write_finish fi done now)
    else if write_todo fi = 0 then (0, fi)
    else write_loop (write_step fi) true now fuel

/-- shall_write_data from shallfs/device.c.  The locked and sync
arguments only affect locking and I/O scheduling and are dropped; why
must be 0..2 or the call fails with -EINVAL. -/
def shall_write_data (fi : FsInfo) (why : Nat) (now : Timespec) :
    Int × FsInfo :=
  if why > 2 then (-EINVAL, fi)
  else write_loop fi false now (fi.read.data_length + 1)

/-! ## Consumer read path (shallfs/device.c, read_code macro) -/

/-- While loop wrapping a pointer offset over device blocks:
while offset ≥ SHALL_DEV_BLOCK, subtract a block and inc_block. -/
def wrap_ptr_loop (p maxptr : DevPtr) : Nat → DevPtr
  | 0 => p
  | fuel+1 =>
    if p.offset ≥ SHALL_DEV_BLOCK then
      wrap_ptr_loop
        (inc_block { p with offset := p.offset - SHALL_DEV_BLOCK } maxptr)
        maxptr fuel
    else p

def wrap_ptr (p maxptr : DevPtr) : DevPtr := wrap_ptr_loop p maxptr p.offset

/-- The todo computation of one pass of the committed-data loop of the
read_code macro: clamp the request to the committed bytes and to the end
of the current device block. -/
def read_todo (fi : FsInfo) (offset len : Nat) : Nat :=
  let todo := len
  let todo := if todo > fi.read.committed then fi.read.committed else todo
  if todo + offset > SHALL_DEV_BLOCK then SHALL_DEV_BLOCK - offset else todo

/-- One pass of the committed-data loop of the read_code macro: read the
block fraction, advance data_start (wrapping over data_space), shrink
committed, and step startptr to the next block when the block boundary
is reached.  Returns (state, offset, len left, bytes read). -/
def read_step (fi : FsInfo) (offset len : Nat) : FsInfo × Nat × Nat × List Nat :=
  let todo := read_todo fi offset len
  let bytes := (List.range todo).map
    (fun i => fi.device fi.read.startptr.block (offset + i))
  let ds := fi.read.data_start + todo
  let ds := if ds ≥ fi.ro.data_space then ds - fi.ro.data_space else ds
  let fi2 :=
    { fi with
      read.data_start := ds
      read.committed := fi.read.committed - todo }
  let offset2 := offset + todo
  if offset2 ≥ SHALL_DEV_BLOCK then
    ({ fi2 with read.startptr := inc_block fi2.read.startptr fi2.ro.maxptr },
     offset2 - SHALL_DEV_BLOCK, len - todo, bytes)
  else (fi2, offset2, len - todo, bytes)

def read_committed_loop (fi : FsInfo) (offset len : Nat) (acc : List Nat) :
    Nat → FsInfo × Nat × Nat × List Nat
  | 0 => (fi, offset, len, acc)
  | fuel+1 =>
    if len > 0 ∧ fi.read.committed > 0 then
      if read_todo fi offset len = 0 then (fi, offset, len, acc)
      else
        let s := read_step fi offset len
        read_committed_loop s.1 s.2.1 s.2.2.1 (acc ++ s.2.2.2) fuel
    else (fi, offset, len, acc)

/-- The uncommitted-data tail of the read_code macro: copy len bytes out
of the commit buffer at buffer_read, advance buffer_read, data_start and
both ring cursors, and reset the buffer indexes when everything buffered
has been consumed. -/
def read_uncommitted (fi : FsInfo) (len : Nat) : FsInfo × List Nat :=
  let bytes := (List.range len).map
    (fun i => fi.other.commit_buffer.getD (fi.read.buffer_read + i) 0)
  let fi : FsInfo := { fi with read.buffer_read := fi.read.buffer_read + len }
  let ds := fi.read.data_start + len
  let ds := if ds ≥ fi.ro.data_space then ds - fi.ro.data_space else ds
  let fi : FsInfo := { fi with read.data_start := ds }
  let sp : DevPtr := { fi.read.startptr with
              offset := fi.read.startptr.offset + len }
  let fi : FsInfo := { fi with read.startptr := wrap_ptr sp fi.ro.maxptr }
  let cp : DevPtr := { fi.read.commitptr with
              offset := fi.read.commitptr.offset + len }
  let fi : FsInfo := { fi with read.commitptr := wrap_ptr cp fi.ro.maxptr }
  let fi : FsInfo :=
    if fi.read.buffer_read ≥ fi.read.buffer_written then
      { fi with
        read.buffer_read := 0
        read.buffer_written := 0 }
    else fi
  (fi, bytes)

/-- The committed-data phase of the read_code macro: run the device loop
when committed data exists, writing the local offset back into
startptr.  Returns (state, len left, bytes read). -/
def read_committed_phase (fi : FsInfo) (len : Nat) : FsInfo × Nat × List Nat :=
  if fi.read.committed > 0 then
    let r := read_committed_loop fi fi.read.startptr.offset len [] (len + 1)
    ({ r.1 with read.startptr.offset := r.2.1 }, r.2.2.1, r.2.2.2)
  else (fi, len, [])

/-- The read_code macro from shallfs/device.c, shared by
shall_read_data_kernel, shall_read_data_user and _mark_read: deliver len
bytes of journal data, first from committed data on the device, then
from the uncommitted part of the commit buffer; returns 0 without any
change when len < 1 or len exceeds data_length.  The copy to the
destination always succeeds in the model (the -EFAULT arm of
copy_to_user is not taken), so all three instances share this
function; _mark_read merely drops the returned bytes. -/
def readData (fi0 : FsInfo) (len : Nat) : Int × FsInfo × List Nat :=
  let orig := len
  if len < 1 then (0, fi0, [])
  else if len > fi0.read.data_length then (0, fi0, [])
  else
    let fi := { fi0 with read.data_length := fi0.read.data_length - len }
    let r := read_committed_phase fi len
    if r.2.1 = 0 then ((orig : Int), r.1, r.2.2)
    else
      let u := read_uncommitted r.1 r.2.1
      ((orig : Int), u.1, r.2.2 ++ u.2)

/-- shall_read_data_kernel from shallfs/device.c. -/
def shall_read_data_kernel (fi : FsInfo) (len : Nat) : Int × FsInfo × List Nat :=
  readData fi len

/-- shall_read_data_user from shallfs/device.c (identical state
behaviour; the destination differs only in address space). -/
def shall_read_data_user (fi : FsInfo) (len : Nat) : Int × FsInfo × List Nat :=
  readData fi len

/-- shall_mark_read from shallfs/device.c: clamp the length to
data_length, then run the same code without copying the bytes out. -/
def shall_mark_read (fi : FsInfo) (len : Nat) : Int × FsInfo :=
  let len := if len > fi.read.data_length then fi.read.data_length else len
  let r := readData fi len
  (r.1, r.2.1)

/-! ## Producer path (shallfs/log.c) -/

/-- need_commit from shallfs/log.c: flush the buffer (reason SIZE) when
the next blob would not fit. -/
def need_commit (fi : FsInfo) (len : Nat) (now : Timespec) : FsInfo :=
  if len + fi.read.buffer_written > fi.options.commit_size then
    (shall_write_data fi 1 now).2
  else fi

/-- log_overflow from shallfs/log.c: count the dropped record under the
queue lock, and if this is the first drop append a single bare-header
OVERFLOW marker with the current timestamp, provided the reserved slot
is actually free (the source logs an internal error and appends nothing
otherwise). -/
def log_overflow (fi : FsInfo) (space : Nat) (now : Timespec) : FsInfo :=
  let num_dropped := fi.lq.num_dropped
  let fi :=
    { fi with
      lq.num_dropped := fi.lq.num_dropped + 1
      lq.extra_space := fi.lq.extra_space + space }
  if num_dropped > 0 then fi
  else
    let next_header := logsize fi.ro.log_alignment HEADER_SIZE
    if next_header + fi.read.data_length > fi.ro.data_space then fi
    else
      let fi := need_commit fi next_header now
      let ovh := mk_header next_header SHALL_OVERFLOW now 0 SHALL_LOG_NODATA
      let fi := add_blob fi (header_bytes ovh)
      let fi := if next_header > HEADER_SIZE then
                  add_padding fi (next_header - HEADER_SIZE)
                else fi
      let fi := if fi.read.buffer_written ≥ fi.options.commit_size then
                  (shall_write_data fi 1 now).2
                else fi
      let fi := { fi with other.logged := fi.other.logged + 1 }
      if fi.other.max_length < fi.read.data_length then
        { fi with other.max_length := fi.read.data_length }
      else fi

/-- The record-size computation at retry_logging in append_logs: the
unpadded length always counts the header and the credentials structure
(the CREDS flag is forced on entry, but a retry with different flags
still adds sizeof creds), plus a 4-byte length and the bytes of each
filename present, plus the typed payload when a data flag is present.
Returns (next_header after alignment, padding). -/
def append_size (alignment flags l1 l2 lp : Nat) : Nat × Nat :=
  let nh := HEADER_SIZE + CREDS_SIZE
  let nh := nh + (if flags &&& SHALL_LOG_FILE1 ≠ 0 then 4 + l1 else 0)
  let nh := nh + (if flags &&& SHALL_LOG_FILE2 ≠ 0 then 4 + l2 else 0)
  let nh := nh + (if flags &&& SHALL_LOG_DMASK ≠ 0 then lp else 0)
  (logsize alignment nh, logsize alignment nh - nh)

/-- The store sequence of append_logs once space is secured: flush if the
record does not fit the buffer, then add header, credentials (when
flagged), each filename with its 4-byte length, the typed payload, and
the alignment padding; finally update max_length (out_noerror). -/
def append_store (fi : FsInfo) (lh : DevHeader) (creds : DevCreds)
    (file1 file2 payload : List Nat) (flags padding : Nat)
    (now : Timespec) : FsInfo :=
  let fi := need_commit fi lh.next_header now
  let fi := add_blob fi (header_bytes lh)
  let fi := if flags &&& SHALL_LOG_CREDS ≠ 0 then
              add_blob fi (creds_bytes creds)
            else fi
  let fi := if flags &&& SHALL_LOG_FILE1 ≠ 0 then
              add_blob (add_blob fi (le32 file1.length)) file1
            else fi
  let fi := if flags &&& SHALL_LOG_FILE2 ≠ 0 then
              add_blob (add_blob fi (le32 file2.length)) file2
            else fi
  let fi := if flags &&& SHALL_LOG_DMASK ≠ 0 then add_blob fi payload else fi
  let fi := if padding > 0 then add_padding fi padding else fi
  if fi.other.max_length < fi.read.data_length then
    { fi with other.max_length := fi.read.data_length }
  else fi

/-- The out_noerror tail of append_logs for paths that store nothing
(dropped records): only max_length is refreshed. -/
def append_out_noerror (fi : FsInfo) : FsInfo :=
  if fi.other.max_length < fi.read.data_length then
    { fi with other.max_length := fi.read.data_length }
  else fi

/-- The space check and store/overflow part of append_logs (after the
record has been sized and its header built).  When the record with the
reserved bare-header slot does not fit in data_space, log_overflow runs;
under the DROP policy the call then succeeds with the record dropped.
Under the WAIT policy the producer suspends until space appears, a
signal arrives, or the policy changes; suspension cannot be modelled
sequentially, so the model returns the signal outcome -ERESTARTSYS with
the post-overflow state (the resumed-with-space outcome is covered by
the separate append_store step in the reachability relation). -/
def append_space_and_store (fi : FsInfo) (lh : DevHeader) (creds : DevCreds)
    (file1 file2 payload : List Nat) (flags padding next_header : Nat)
    (now : Timespec) : Int × FsInfo :=
  let required := logsize fi.ro.log_alignment HEADER_SIZE + next_header
  if required + fi.read.data_length > fi.ro.data_space then
    let fi := log_overflow fi next_header now
    if IS_DROP fi then (0, append_out_noerror fi)
    else (-ERESTARTSYS, fi)
  else
    (0, append_store fi lh creds file1 file2 payload flags padding now)

/-- append_logs from shallfs/log.c.  Credentials are always logged (the
CREDS flag is forced).  If the aligned record exceeds commit_size, the
call fails with -EFBIG under the TOO_BIG=error policy, and otherwise
retries as a TOO_BIG marker: operation SHALL_TOO_BIG, result = the
required size, flags = SHALL_LOG_NODATA -- the retried size computation
still counts sizeof creds although the CREDS flag is gone.  The
allow_commit_thread suspension and the remount re-checks are no-ops in
this sequential model. -/
def append_logs (fi : FsInfo) (operation result : Int) (flags0 : Nat)
    (creds : DevCreds) (file1 file2 payload : List Nat)
    (now : Timespec) : Int × FsInfo :=
  let flags := flags0 ||| SHALL_LOG_CREDS
  let sz := append_size fi.ro.log_alignment flags
              file1.length file2.length payload.length
  let next_header := sz.1
  let padding := sz.2
  let lh := mk_header next_header operation now result flags
  if next_header > fi.options.commit_size then
    if operation = SHALL_TOO_BIG then (-EFBIG, fi)
    else if IS_ERROR fi then (-EFBIG, fi)
    else
      let sz2 := append_size fi.ro.log_alignment SHALL_LOG_NODATA 0 0 0
      let lh2 := mk_header sz2.1 SHALL_TOO_BIG now (next_header : Int)
                   SHALL_LOG_NODATA
      if sz2.1 > fi.options.commit_size then (-EFBIG, fi)
      else
        append_space_and_store fi lh2 creds [] [] []
          SHALL_LOG_NODATA sz2.2 sz2.1 now
  else
    append_space_and_store fi lh creds file1 file2 payload
      flags padding next_header now

/-! ## Overflow recovery and consumers (shallfs/log.c) -/

/-- shall_log_recovery from shallfs/log.c: if there is room for a
RECOVER record plus the reserved bare-header slot and records were
dropped, append a single RECOVER record whose result is num_dropped and
whose SIZE payload is extra_space, and zero both counters. -/
def shall_log_recovery (fi : FsInfo) (now : Timespec) : FsInfo :=
  let data_size := HEADER_SIZE + 8
  let next_header := logsize fi.ro.log_alignment data_size
  let required := next_header + logsize fi.ro.log_alignment HEADER_SIZE
  if required + fi.read.data_length > fi.ro.data_space then fi
  else if fi.lq.num_dropped = 0 then fi
  else
    let extra_space := fi.lq.extra_space
    let num_dropped := fi.lq.num_dropped
    let fi := { fi with lq.num_dropped := 0, lq.extra_space := 0 }
    let fi := need_commit fi next_header now
    let sh := mk_header next_header SHALL_RECOVER now (num_dropped : Int)
                SHALL_LOG_SIZE
    let fi := add_blob fi (header_bytes sh)
    let fi := add_blob fi (le64 extra_space)
    let fi := if next_header > data_size then
                add_padding fi (next_header - data_size)
              else fi
    let fi := if fi.read.buffer_written ≥ fi.options.commit_size then
                (shall_write_data fi 1 now).2
              else fi
    let fi := { fi with other.logged := fi.other.logged + 1 }
    if fi.other.max_length < fi.read.data_length then
      { fi with other.max_length := fi.read.data_length }
    else fi

/-- get_log_devheader from shallfs/log.c: read 32 bytes of journal data,
verify the header checksum and next_header, and check that the rest of
the record is present; returns next_header (positive), 0 when no data,
or a negative error, together with the state after the 32-byte read. -/
def get_log_devheader (fi : FsInfo) : Int × FsInfo :=
  let r := shall_read_data_kernel fi HEADER_SIZE
  if r.1 ≤ 0 then (r.1, r.2.1)
  else
    let evh := decode_header r.2.2
    if crc32_le 0x4c414853 (r.2.2.take 28) ≠ evh.checksum then
      (-EINVAL, r.2.1)
    else if evh.next_header < HEADER_SIZE then (-EINVAL, r.2.1)
    else if r.2.1.read.data_length < evh.next_header - HEADER_SIZE then
      (-EINVAL, r.2.1)
    else ((evh.next_header : Int), r.2.1)

/-- The loop of shall_bin_logs.  Returns the state after the loop (with
the cursor already restored on a failing iteration), the bytes
accumulated, and the error of the failing exit if any.  Fuel space + 1
suffices: every completed iteration consumes at least 32 bytes of
space. -/
def bin_loop (fi : FsInfo) (space done : Nat) :
    Nat → FsInfo × Nat × Option Int
  | 0 => (fi, done, none)
  | fuel+1 =>
    if space ≥ HEADER_SIZE then
      let save := fi.read
      let r1 := get_log_devheader fi
      if r1.1 ≤ 0 then ({ r1.2 with read := save }, done, some r1.1)
      else
        let nh := r1.1.toNat
        if space < nh then ({ r1.2 with read := save }, done, some (-EFBIG))
        else if nh > HEADER_SIZE then
          let r2 := shall_read_data_user r1.2 (nh - HEADER_SIZE)
          if r2.1 < 0 then ({ r2.2.1 with read := save }, done, some r2.1)
          else if r2.1 = 0 then
            ({ r2.2.1 with read := save }, done, some (-EINVAL))
          else bin_loop r2.2.1 (space - nh) (done + nh) fuel
        else bin_loop r1.2 (space - nh) (done + nh) fuel
    else (fi, done, none)

/-- shall_bin_logs from shallfs/log.c: drain whole records into the
caller's buffer of the given size.  On a normal exit the overflow
recovery marker is attempted; on a failing exit the cursor was restored
to the start of the failing record and the call returns the bytes
accumulated when any, else the error. -/
def shall_bin_logs (fi : FsInfo) (space : Nat) (now : Timespec) :
    Int × FsInfo :=
  if space < 1 then (0, fi)
  else
    let r := bin_loop fi space 0 (space + 1)
    match r.2.2 with
    | none => ((r.2.1 : Int), shall_log_recovery r.1 now)
    | some err =>
      if r.2.1 > 0 then ((r.2.1 : Int), shall_log_recovery r.1 now)
      else (err, r.1)

/-- The loop of shall_delete_logs: like bin_loop but skipping the record
bodies with shall_mark_read; when the next record is longer than the
bytes left to skip, the source exits through out_restore with err still
holding that record's length, so a positive "error" is propagated. -/
def delete_loop (fi : FsInfo) (skip done : Nat) :
    Nat → FsInfo × Nat × Option Int
  | 0 => (fi, done, none)
  | fuel+1 =>
    if skip ≥ HEADER_SIZE then
      let save := fi.read
      let r1 := get_log_devheader fi
      if r1.1 ≤ 0 then ({ r1.2 with read := save }, done, some r1.1)
      else
        let evlen := r1.1.toNat
        if skip < evlen then ({ r1.2 with read := save }, done, some r1.1)
        else if evlen > HEADER_SIZE then
          let r2 := shall_mark_read r1.2 (evlen - HEADER_SIZE)
          if r2.1 ≤ 0 then ({ r2.2 with read := save }, done, some r2.1)
          else delete_loop r2.2 (skip - evlen) (done + evlen) fuel
        else delete_loop r1.2 (skip - evlen) (done + evlen) fuel
    else (fi, done, none)

/-- shall_delete_logs from shallfs/log.c: discard whole records without
copying them, used by the clear control command. -/
def shall_delete_logs (fi : FsInfo) (skip : Nat) (now : Timespec) :
    Int × FsInfo :=
  if skip < 1 then (0, fi)
  else
    let r := delete_loop fi skip 0 (skip + 1)
    match r.2.2 with
    | none => ((r.2.1 : Int), shall_log_recovery r.1 now)
    | some err =>
      if r.2.1 > 0 then ((r.2.1 : Int), shall_log_recovery r.1 now)
      else (err, r.1)

/-! ## Mount initialisation (shallfs/super.c) -/

/-- The loop of shall_update_superblock: write nrecs superblocks spread
diff apart, wrapping modulo num_superblocks; returns the state and the
final which index. -/
def update_sb_loop (fi : FsInfo) (which diff : Nat) :
    Nat → FsInfo × Nat
  | 0 => (fi, which)
  | fuel+1 =>
    let fi := shall_write_superblock fi which
    let which := which + diff
    let which := if which ≥ fi.ro.num_superblocks
                 then which - fi.ro.num_superblocks else which
    update_sb_loop fi which diff fuel

/-- shall_update_superblock from shallfs/super.c: bump version, write
about seven superblocks spread evenly, and remember the next index in
last_sb_written.  Used during mount and umount. -/
def shall_update_superblock (fi : FsInfo) : FsInfo :=
  let fi := { fi with other.version := fi.other.version + 1 }
  let nrecs := if 7 > fi.ro.num_superblocks then fi.ro.num_superblocks else 7
  let diff := fi.ro.num_superblocks / nrecs
  let r := update_sb_loop fi 0 diff nrecs
  { r.1 with other.last_sb_written := r.2 }

/-- The engine-state initialisation of shall_fill_super (shallfs/super.c)
from the selected superblock: committed := data_length, the start and
commit pointers are computed by shall_calculate_block, the commit buffer
is empty, the overflow counters are zero, maxptr.block is set to
data_space / SHALL_DEV_BLOCK (the cached value inc_block wraps on), the
DIRTY flag is raised and shall_update_superblock runs.  The maxptr
next_super field is never assigned in the source (only block, n_super
and offset are); the model uses 0, which inc_block never reads. -/
def mount_state (opts : EngineOptions) (sb : DevSuper)
    (dev : Nat → Nat → Nat) (now : Timespec) : FsInfo :=
  let dend0 := sb.data_start + sb.data_length
  let dend := if dend0 ≥ sb.data_space then dend0 - sb.data_space else dend0
  let fi : FsInfo :=
    { options := opts
      ro :=
        { device_size := sb.device_size
          data_space := sb.data_space
          num_superblocks := sb.num_superblocks
          log_alignment := sb.alignment
          sb_flags := sb.flags ||| SHALL_SB_DIRTY
          maxptr :=
            { block := sb.data_space / SHALL_DEV_BLOCK
              n_super := sb.num_superblocks
              offset := SHALL_DEV_BLOCK
              next_super := 0 } }
      read :=
        { data_start := sb.data_start
          data_length := sb.data_length
          committed := sb.data_length
          startptr := shall_calculate_block sb.data_start sb.num_superblocks
          commitptr := shall_calculate_block dend sb.num_superblocks
          buffer_written := 0
          buffer_read := 0 }
      other :=
        { last_commit := now.sec
          last_sb_written := 0
          max_length := sb.max_length
          version := sb.version
          logged := 0
          commit_buffer := [] }
      lq := { num_dropped := 0, extra_space := 0 }
      device := dev
      sb_writes := [] }
  shall_update_superblock fi

/-! ## Reachability: the public-operation boundaries

One constructor per public engine operation named by the spec: mount
initialisation, append_logs (including its drop and interrupted-wait
completions), the resumed store of a WAIT producer once space is
available, shall_write_data, the data readers, shall_mark_read, and the
two consumer drains. -/

attribute [irreducible] shall_read_superblock_valid

inductive Reachable : FsInfo → Prop where
  | mount (opts : EngineOptions) (sb : DevSuper) (dev : Nat → Nat → Nat)
      (now : Timespec) (physical_size n : Nat)
      (hvalid : shall_read_superblock_valid sb physical_size n = true)
      (hupd : sb.flags &&& SHALL_SB_UPDATE = 0) :
      Reachable (mount_state opts sb dev now)
  | append (fi : FsInfo) (operation result : Int) (flags : Nat)
      (creds : DevCreds) (file1 file2 payload : List Nat) (now : Timespec)
      (h : Reachable fi) :
      Reachable (append_logs fi operation result flags creds
        file1 file2 payload now).2
  | append_resumed (fi : FsInfo) (lh : DevHeader) (creds : DevCreds)
      (file1 file2 payload : List Nat) (flags padding : Nat)
      (now : Timespec) (h : Reachable fi) :
      Reachable (append_store fi lh creds file1 file2 payload
        flags padding now)
  | write_data (fi : FsInfo) (why : Nat) (now : Timespec)
      (h : Reachable fi) :
      Reachable (shall_write_data fi why now).2
  | read_kernel (fi : FsInfo) (len : Nat) (h : Reachable fi) :
      Reachable (shall_read_data_kernel fi len).2.1
  | read_user (fi : FsInfo) (len : Nat) (h : Reachable fi) :
      Reachable (shall_read_data_user fi len).2.1
  | mark_read (fi : FsInfo) (len : Nat) (h : Reachable fi) :
      Reachable (shall_mark_read fi len).2
  | bin_logs (fi : FsInfo) (space : Nat) (now : Timespec)
      (h : Reachable fi) :
      Reachable (shall_bin_logs fi space now).2
  | delete_logs (fi : FsInfo) (skip : Nat) (now : Timespec)
      (h : Reachable fi) :
      Reachable (shall_delete_logs fi skip now).2

/-- The core accounting invariant of the commit engine, plus the
auxiliary facts needed to maintain it: the block offsets of the two ring
cursors stay below the block size, the buffer indexes are ordered, and
the modelled buffer holds exactly the bytes up to buffer_written. -/
def engineInv (fi : FsInfo) : Prop :=
  fi.read.committed + fi.read.buffer_written =
    fi.read.data_length + fi.read.buffer_read ∧
  fi.read.buffer_read ≤ fi.read.buffer_written ∧
  fi.read.startptr.offset < SHALL_DEV_BLOCK ∧
  fi.read.commitptr.offset < SHALL_DEV_BLOCK ∧
  fi.read.buffer_written ≤ fi.other.commit_buffer.length

/-! ## Basic lemmas about the embedded operations -/

theorem inc_block_offset (b m : DevPtr) : (inc_block b m).offset = b.offset := by
  simp only [inc_block]
  repeat' split
  all_goals rfl

theorem wrap_ptr_loop_offset (m : DevPtr) :
    ∀ fuel p, p.offset ≤ fuel →
      (wrap_ptr_loop p m fuel).offset < SHALL_DEV_BLOCK := by
  intro fuel
  induction fuel with
  | zero =>
    intro p hp
    unfold wrap_ptr_loop SHALL_DEV_BLOCK
    omega
  | succ n ih =>
    intro p hp
    unfold wrap_ptr_loop
    split
    · apply ih
      rw [inc_block_offset]
      simp only [SHALL_DEV_BLOCK] at *
      omega
    · unfold SHALL_DEV_BLOCK at *
      omega

theorem wrap_ptr_offset (p m : DevPtr) :
    (wrap_ptr p m).offset < SHALL_DEV_BLOCK :=
  wrap_ptr_loop_offset m p.offset p (le_refl _)

theorem add_blob_inv {fi : FsInfo} (data : List Nat) (h : engineInv fi) :
    engineInv (add_blob fi data) := by
  unfold engineInv add_blob at *
  split
  · split
    · exact h
    · dsimp only
      simp only [List.length_append, List.length_take]
      omega
  · exact h

theorem add_blob_frame (fi : FsInfo) (data : List Nat) :
    (add_blob fi data).read.committed = fi.read.committed ∧
    (add_blob fi data).read.data_start = fi.read.data_start ∧
    (add_blob fi data).read.startptr = fi.read.startptr ∧
    (add_blob fi data).read.commitptr = fi.read.commitptr ∧
    (add_blob fi data).read.buffer_read = fi.read.buffer_read ∧
    (add_blob fi data).options = fi.options ∧
    (add_blob fi data).ro = fi.ro ∧
    (add_blob fi data).lq = fi.lq ∧
    (add_blob fi data).other.version = fi.other.version ∧
    (add_blob fi data).sb_writes = fi.sb_writes := by
  unfold add_blob
  repeat' split
  all_goals simp

theorem add_padding_loop_inv (fuel : Nat) :
    ∀ (fi : FsInfo) (len : Nat),
      engineInv fi → engineInv (add_padding_loop fi len fuel) := by
  induction fuel with
  | zero => intro fi len h; exact h
  | succ n ih =>
    intro fi len h
    unfold add_padding_loop
    split
    · exact ih _ _ (add_blob_inv _ h)
    · exact h

theorem add_padding_inv {fi : FsInfo} (len : Nat) (h : engineInv fi) :
    engineInv (add_padding fi len) :=
  add_padding_loop_inv len fi len h

theorem write_finish_inv {fi : FsInfo} (done : Bool) (now : Timespec)
    (h : engineInv fi) (hc : fi.read.committed ≥ fi.read.data_length) :
    engineInv (write_finish fi done now) := by
  obtain ⟨h1, h2, h3, h4, h5⟩ := h
  unfold write_finish
  dsimp only
  split
  · split <;>
      (refine ⟨?_, ?_, ?_, ?_, ?_⟩ <;>
        simp only [shall_write_superblock] <;> omega)
  · refine ⟨?_, ?_, ?_, ?_, ?_⟩ <;> dsimp only <;> omega

theorem write_step_inv {fi : FsInfo} (h : engineInv fi) :
    engineInv (write_step fi) := by
  obtain ⟨h1, h2, h3, h4, h5⟩ := h
  unfold write_step
  dsimp only
  constructor
  · dsimp only; split <;> dsimp only <;>
      simp only [write_todo, SHALL_DEV_BLOCK] at * <;> omega
  constructor
  · dsimp only; split <;> dsimp only <;>
      simp only [write_todo, SHALL_DEV_BLOCK] at * <;> omega
  constructor
  · dsimp only; split <;> dsimp only <;> exact h3
  constructor
  · dsimp only
    split
    · rw [inc_block_offset]
      dsimp only
      simp only [write_todo, SHALL_DEV_BLOCK] at *
      omega
    · dsimp only
      simp only [write_todo, SHALL_DEV_BLOCK] at *
      omega
  · dsimp only; split <;> dsimp only <;> omega

theorem write_loop_inv (fuel : Nat) :
    ∀ (fi : FsInfo) (done : Bool) (now : Timespec),
      engineInv fi → engineInv (write_loop fi done now fuel).2 := by
  induction fuel with
  | zero => intro fi done now h; exact h
  | succ n ih =>
    intro fi done now h
    unfold write_loop
    split
    · dsimp only
      exact write_finish_inv _ _ h (by assumption)
    · split
      · exact h
      · exact ih _ _ _ (write_step_inv h)

theorem shall_write_data_inv {fi : FsInfo} (why : Nat) (now : Timespec)
    (h : engineInv fi) : engineInv (shall_write_data fi why now).2 := by
  unfold shall_write_data
  split
  · exact h
  · exact write_loop_inv _ fi false now h

theorem need_commit_inv {fi : FsInfo} (len : Nat) (now : Timespec)
    (h : engineInv fi) : engineInv (need_commit fi len now) := by
  unfold need_commit
  split
  · exact shall_write_data_inv 1 now h
  · exact h

theorem read_todo_le_len (fi : FsInfo) (offset len : Nat) :
    read_todo fi offset len ≤ len := by
  simp only [read_todo]
  repeat' split
  all_goals omega

theorem read_todo_le_committed (fi : FsInfo) (offset len : Nat) :
    read_todo fi offset len ≤ fi.read.committed := by
  simp only [read_todo]
  repeat' split
  all_goals omega

theorem read_todo_pos (fi : FsInfo) (offset len : Nat) (h1 : len > 0)
    (h2 : fi.read.committed > 0) (h3 : offset < SHALL_DEV_BLOCK) :
    read_todo fi offset len > 0 := by
  simp only [read_todo]
  repeat' split
  all_goals omega

theorem read_todo_add_offset (fi : FsInfo) (offset len : Nat)
    (h3 : offset < SHALL_DEV_BLOCK) :
    read_todo fi offset len + offset ≤ SHALL_DEV_BLOCK := by
  simp only [read_todo]
  repeat' split
  all_goals omega

theorem read_step_frame (fi : FsInfo) (offset len : Nat) :
    (read_step fi offset len).1.read.buffer_read = fi.read.buffer_read ∧
    (read_step fi offset len).1.read.buffer_written = fi.read.buffer_written ∧
    (read_step fi offset len).1.read.data_length = fi.read.data_length ∧
    (read_step fi offset len).1.read.commitptr = fi.read.commitptr ∧
    (read_step fi offset len).1.other = fi.other ∧
    (read_step fi offset len).1.options = fi.options ∧
    (read_step fi offset len).1.ro = fi.ro ∧
    (read_step fi offset len).1.lq = fi.lq := by
  simp only [read_step]
  split
  all_goals exact ⟨rfl, rfl, rfl, rfl, rfl, rfl, rfl, rfl⟩

theorem read_step_committed (fi : FsInfo) (offset len : Nat) :
    (read_step fi offset len).1.read.committed + read_todo fi offset len =
      fi.read.committed := by
  have := read_todo_le_committed fi offset len
  simp only [read_step]
  split
  all_goals dsimp only
  all_goals omega

theorem read_step_len (fi : FsInfo) (offset len : Nat) :
    (read_step fi offset len).2.2.1 = len - read_todo fi offset len := by
  simp only [read_step]
  split
  all_goals rfl

theorem read_step_offset (fi : FsInfo) (offset len : Nat)
    (h : offset < SHALL_DEV_BLOCK) :
    (read_step fi offset len).2.1 < SHALL_DEV_BLOCK := by
  have := read_todo_add_offset fi offset len h
  simp only [read_step]
  split
  all_goals dsimp only
  all_goals simp only [SHALL_DEV_BLOCK] at *
  all_goals omega

/-- Behaviour of the committed-data loop of read_code: the buffer
indexes, data_length, the commit pointer and everything outside rw.read
are untouched; the local offset stays below the block size; committed
falls by exactly the bytes delivered; and with enough fuel the loop only
stops when the request or the committed data is exhausted. -/
theorem read_committed_loop_spec (fuel : Nat) :
    ∀ (fi : FsInfo) (offset len : Nat) (acc : List Nat),
      offset < SHALL_DEV_BLOCK →
      (read_committed_loop fi offset len acc fuel).1.read.buffer_read =
          fi.read.buffer_read ∧
      (read_committed_loop fi offset len acc fuel).1.read.buffer_written =
          fi.read.buffer_written ∧
      (read_committed_loop fi offset len acc fuel).1.read.data_length =
          fi.read.data_length ∧
      (read_committed_loop fi offset len acc fuel).1.read.commitptr =
          fi.read.commitptr ∧
      (read_committed_loop fi offset len acc fuel).1.other = fi.other ∧
      (read_committed_loop fi offset len acc fuel).1.options = fi.options ∧
      (read_committed_loop fi offset len acc fuel).1.ro = fi.ro ∧
      (read_committed_loop fi offset len acc fuel).1.lq = fi.lq ∧
      (read_committed_loop fi offset len acc fuel).2.1 < SHALL_DEV_BLOCK ∧
      (read_committed_loop fi offset len acc fuel).2.2.1 ≤ len ∧
      (read_committed_loop fi offset len acc fuel).1.read.committed + len =
          fi.read.committed +
            (read_committed_loop fi offset len acc fuel).2.2.1 ∧
      (len < fuel →
        (read_committed_loop fi offset len acc fuel).2.2.1 = 0 ∨
        (read_committed_loop fi offset len acc fuel).1.read.committed = 0) := by
  induction fuel with
  | zero =>
    intro fi offset len acc hoff
    unfold read_committed_loop
    exact ⟨rfl, rfl, rfl, rfl, rfl, rfl, rfl, rfl, hoff, le_refl _,
      by dsimp only; try omega, by dsimp only; try omega⟩
  | succ n ih =>
    intro fi offset len acc hoff
    unfold read_committed_loop
    split
    · split
      · exact ⟨rfl, rfl, rfl, rfl, rfl, rfl, rfl, rfl, hoff, le_refl _,
          by dsimp only; try omega,
          by
            rename_i hc ht
            intro
            left
            have := read_todo_pos fi offset len hc.1 hc.2 hoff
            omega⟩
      · rename_i hc ht
        dsimp only
        have hoff2 := read_step_offset fi offset len hoff
        obtain ⟨i1, i2, i3, i4, i5, i6, i7, i8, i9, i10, i11, i12⟩ :=
          ih (read_step fi offset len).1 (read_step fi offset len).2.1
            (read_step fi offset len).2.2.1
            (acc ++ (read_step fi offset len).2.2.2) hoff2
        obtain ⟨f1, f2, f3, f4, f5, f6, f7, f8⟩ := read_step_frame fi offset len
        have hcom := read_step_committed fi offset len
        have hlen := read_step_len fi offset len
        have hle := read_todo_le_len fi offset len
        have hpos := read_todo_pos fi offset len hc.1 hc.2 hoff
        refine ⟨?_, ?_, ?_, ?_, ?_, ?_, ?_, ?_, i9, ?_, ?_, ?_⟩
        · rw [i1, f1]
        · rw [i2, f2]
        · rw [i3, f3]
        · rw [i4, f4]
        · rw [i5, f5]
        · rw [i6, f6]
        · rw [i7, f7]
        · rw [i8, f8]
        · omega
        · omega
        · intro hfuel
          rcases i12 (by omega) with h | h
          · left; omega
          · right; exact h
    · exact ⟨rfl, rfl, rfl, rfl, rfl, rfl, rfl, rfl, hoff, le_refl _,
        by dsimp only; try omega, by
          rename_i hc
          intro
          dsimp only
          push_neg at hc
          by_cases hlz : len = 0
          · left; exact hlz
          · right; omega⟩

theorem read_committed_phase_spec (fi : FsInfo) (len : Nat)
    (hoff : fi.read.startptr.offset < SHALL_DEV_BLOCK) :
    (read_committed_phase fi len).1.read.buffer_read =
        fi.read.buffer_read ∧
    (read_committed_phase fi len).1.read.buffer_written =
        fi.read.buffer_written ∧
    (read_committed_phase fi len).1.read.data_length =
        fi.read.data_length ∧
    (read_committed_phase fi len).1.read.commitptr = fi.read.commitptr ∧
    (read_committed_phase fi len).1.other = fi.other ∧
    (read_committed_phase fi len).1.options = fi.options ∧
    (read_committed_phase fi len).1.ro = fi.ro ∧
    (read_committed_phase fi len).1.lq = fi.lq ∧
    (read_committed_phase fi len).1.read.startptr.offset <
        SHALL_DEV_BLOCK ∧
    (read_committed_phase fi len).2.1 ≤ len ∧
    (read_committed_phase fi len).1.read.committed + len =
        fi.read.committed + (read_committed_phase fi len).2.1 ∧
    ((read_committed_phase fi len).2.1 = 0 ∨
     (read_committed_phase fi len).1.read.committed = 0) := by
  unfold read_committed_phase
  split
  · obtain ⟨i1, i2, i3, i4, i5, i6, i7, i8, i9, i10, i11, i12⟩ :=
      read_committed_loop_spec (len + 1) fi fi.read.startptr.offset len []
        hoff
    refine ⟨i1, i2, i3, i4, i5, i6, i7, i8, i9, i10, i11, ?_⟩
    exact i12 (by omega)
  · rename_i hc
    exact ⟨rfl, rfl, rfl, rfl, rfl, rfl, rfl, rfl, hoff, le_refl _,
      by dsimp only; try omega, by dsimp only; try omega⟩

theorem read_uncommitted_spec (fi : FsInfo) (len : Nat)
    (hs : fi.read.startptr.offset < SHALL_DEV_BLOCK)
    (hc : fi.read.commitptr.offset < SHALL_DEV_BLOCK) :
    (read_uncommitted fi len).1.read.committed = fi.read.committed ∧
    (read_uncommitted fi len).1.read.data_length = fi.read.data_length ∧
    (read_uncommitted fi len).1.other = fi.other ∧
    (read_uncommitted fi len).1.options = fi.options ∧
    (read_uncommitted fi len).1.ro = fi.ro ∧
    (read_uncommitted fi len).1.lq = fi.lq ∧
    (read_uncommitted fi len).1.read.startptr.offset < SHALL_DEV_BLOCK ∧
    (read_uncommitted fi len).1.read.commitptr.offset < SHALL_DEV_BLOCK ∧
    ((fi.read.buffer_read + len ≥ fi.read.buffer_written ∧
      (read_uncommitted fi len).1.read.buffer_read = 0 ∧
      (read_uncommitted fi len).1.read.buffer_written = 0) ∨
     (¬ (fi.read.buffer_read + len ≥ fi.read.buffer_written) ∧
      (read_uncommitted fi len).1.read.buffer_read =
        fi.read.buffer_read + len ∧
      (read_uncommitted fi len).1.read.buffer_written =
        fi.read.buffer_written)) := by
  simp only [read_uncommitted]
  split
  · rename_i hreset
    dsimp only at hreset ⊢
    exact ⟨rfl, rfl, rfl, rfl, rfl, rfl, wrap_ptr_offset _ _,
      wrap_ptr_offset _ _, Or.inl ⟨hreset, rfl, rfl⟩⟩
  · rename_i hreset
    dsimp only at hreset ⊢
    exact ⟨rfl, rfl, rfl, rfl, rfl, rfl, wrap_ptr_offset _ _,
      wrap_ptr_offset _ _, Or.inr ⟨hreset, rfl, rfl⟩⟩

theorem readData_inv {fi : FsInfo} (len : Nat) (h : engineInv fi) :
    engineInv (readData fi len).2.1 := by
  obtain ⟨h1, h2, h3, h4, h5⟩ := h
  unfold readData
  split
  · exact ⟨h1, h2, h3, h4, h5⟩
  split
  · exact ⟨h1, h2, h3, h4, h5⟩
  rename_i hlen1 hlen2
  dsimp only
  set fi1 : FsInfo := { fi with read.data_length := fi.read.data_length - len }
    with hfi1
  have e1 : fi1.read.data_length = fi.read.data_length - len := rfl
  have e2 : fi1.read.buffer_read = fi.read.buffer_read := rfl
  have e3 : fi1.read.buffer_written = fi.read.buffer_written := rfl
  have e4 : fi1.read.committed = fi.read.committed := rfl
  have e5 : fi1.read.startptr.offset = fi.read.startptr.offset := rfl
  have e6 : fi1.read.commitptr.offset = fi.read.commitptr.offset := rfl
  have e7 : fi1.other.commit_buffer.length =
      fi.other.commit_buffer.length := rfl
  obtain ⟨p1, p2, p3, p4, p5, p6, p7, p8, p9, p10, p11, p12⟩ :=
    read_committed_phase_spec fi1 len (by rw [e5]; exact h3)
  have p4o : (read_committed_phase fi1 len).1.read.commitptr.offset =
      fi.read.commitptr.offset := by rw [p4, e6]
  have p5o : (read_committed_phase fi1 len).1.other.commit_buffer.length =
      fi.other.commit_buffer.length := by rw [p5, e7]
  split
  · rename_i hlz
    dsimp only
    refine ⟨?_, ?_, p9, ?_, ?_⟩
    · rw [p1, p2, p3, e1, e2, e3]
      rw [e4] at p11
      omega
    · rw [p1, p2, e2, e3]
      exact h2
    · rw [p4o]
      exact h4
    · rw [p2, p5o, e3]
      exact h5
  · rename_i hlz
    dsimp only
    obtain ⟨u1, u2, u3, u4, u5, u6, u7, u8, u9⟩ :=
      read_uncommitted_spec (read_committed_phase fi1 len).1
        (read_committed_phase fi1 len).2.1 p9 (by rw [p4o]; exact h4)
    have hu3 : (read_uncommitted (read_committed_phase fi1 len).1
        (read_committed_phase fi1 len).2.1).1.other.commit_buffer.length =
        fi.other.commit_buffer.length := by rw [u3, p5o]
    have hmid0 : (read_committed_phase fi1 len).1.read.committed = 0 := by
      rcases p12 with hp | hp
      · omega
      · exact hp
    rw [e4] at p11
    rw [e1] at p3
    rw [e2] at p1
    rw [e3] at p2
    refine ⟨?_, ?_, u7, u8, ?_⟩
    · rw [u1, u2, hmid0, p3]
      rcases u9 with ⟨hr, hb1, hb2⟩ | ⟨hr, hb1, hb2⟩ <;>
        rw [hb1, hb2] <;> rw [p1, p2] at hr <;> omega
    · rcases u9 with ⟨hr, hb1, hb2⟩ | ⟨hr, hb1, hb2⟩ <;>
        rw [hb1, hb2] <;> rw [p1, p2] at hr <;> omega
    · rw [hu3]
      rcases u9 with ⟨hr, hb1, hb2⟩ | ⟨hr, hb1, hb2⟩ <;>
        rw [hb2] <;> try rw [p2]
      · omega
      · exact h5

theorem read_committed_loop_frame (fuel : Nat) :
    ∀ (fi : FsInfo) (offset len : Nat) (acc : List Nat),
      (read_committed_loop fi offset len acc fuel).1.other = fi.other ∧
      (read_committed_loop fi offset len acc fuel).1.options = fi.options ∧
      (read_committed_loop fi offset len acc fuel).1.ro = fi.ro ∧
      (read_committed_loop fi offset len acc fuel).1.lq = fi.lq := by
  induction fuel with
  | zero => intro fi offset len acc; exact ⟨rfl, rfl, rfl, rfl⟩
  | succ n ih =>
    intro fi offset len acc
    unfold read_committed_loop
    split
    · split
      · exact ⟨rfl, rfl, rfl, rfl⟩
      · dsimp only
        obtain ⟨i1, i2, i3, i4⟩ :=
          ih (read_step fi offset len).1 (read_step fi offset len).2.1
            (read_step fi offset len).2.2.1
            (acc ++ (read_step fi offset len).2.2.2)
        obtain ⟨f1, f2, f3, f4, f5, f6, f7, f8⟩ := read_step_frame fi offset len
        exact ⟨by rw [i1, f5], by rw [i2, f6], by rw [i3, f7],
          by rw [i4, f8]⟩
    · exact ⟨rfl, rfl, rfl, rfl⟩

/-- readData changes nothing outside rw.read. -/
theorem readData_frame (fi : FsInfo) (len : Nat) :
    (readData fi len).2.1.other = fi.other ∧
    (readData fi len).2.1.options = fi.options ∧
    (readData fi len).2.1.ro = fi.ro ∧
    (readData fi len).2.1.lq = fi.lq := by
  unfold readData
  split
  · exact ⟨rfl, rfl, rfl, rfl⟩
  split
  · exact ⟨rfl, rfl, rfl, rfl⟩
  dsimp only
  set fi1 : FsInfo := { fi with read.data_length := fi.read.data_length - len }
    with hfi1
  have q : (read_committed_phase fi1 len).1.other = fi.other ∧
      (read_committed_phase fi1 len).1.options = fi.options ∧
      (read_committed_phase fi1 len).1.ro = fi.ro ∧
      (read_committed_phase fi1 len).1.lq = fi.lq := by
    unfold read_committed_phase
    split
    · obtain ⟨i1, i2, i3, i4⟩ :=
        read_committed_loop_frame (len + 1) fi1 fi1.read.startptr.offset
          len []
      exact ⟨i1, i2, i3, i4⟩
    · exact ⟨rfl, rfl, rfl, rfl⟩
  split
  · exact q
  · dsimp only
    obtain ⟨u3, u4, u5, u6⟩ :=
      (by
        simp only [read_uncommitted]
        split <;> exact ⟨rfl, rfl, rfl, rfl⟩ :
        (read_uncommitted (read_committed_phase fi1 len).1
            (read_committed_phase fi1 len).2.1).1.other =
          (read_committed_phase fi1 len).1.other ∧
        (read_uncommitted (read_committed_phase fi1 len).1
            (read_committed_phase fi1 len).2.1).1.options =
          (read_committed_phase fi1 len).1.options ∧
        (read_uncommitted (read_committed_phase fi1 len).1
            (read_committed_phase fi1 len).2.1).1.ro =
          (read_committed_phase fi1 len).1.ro ∧
        (read_uncommitted (read_committed_phase fi1 len).1
            (read_committed_phase fi1 len).2.1).1.lq =
          (read_committed_phase fi1 len).1.lq)
    exact ⟨by rw [u3, q.1], by rw [u4, q.2.1], by rw [u5, q.2.2.1],
      by rw [u6, q.2.2.2]⟩

theorem shall_read_data_kernel_inv {fi : FsInfo} (len : Nat)
    (h : engineInv fi) : engineInv (shall_read_data_kernel fi len).2.1 :=
  readData_inv len h

theorem shall_read_data_user_inv {fi : FsInfo} (len : Nat)
    (h : engineInv fi) : engineInv (shall_read_data_user fi len).2.1 :=
  readData_inv len h

theorem shall_mark_read_inv {fi : FsInfo} (len : Nat)
    (h : engineInv fi) : engineInv (shall_mark_read fi len).2 :=
  readData_inv _ h

/- The heavyweight inner functions (byte codecs, crc, the fuelled device
loops and the reader) are made irreducible for elaboration from this
point on: proofs unfold them through their equation lemmas only, and
goals never profit from the elaborator delta-reducing a fuelled
recursion.  Kernel evaluation (decide) is unaffected. -/
attribute [irreducible] le32 le64 le32i readLe32 readLe64 int32_of
  crc32_bit crc32_byte crc32_le
  shall_calculate_block calc_loop inc_block
  devsuper_checkbytes checksum_super
  header_checkbytes checksum_header header_bytes mk_header decode_header
  creds_bytes dev_write write_todo write_step write_finish
  write_loop shall_write_data
  wrap_ptr_loop wrap_ptr read_todo read_step read_committed_loop
  read_uncommitted read_committed_phase readData

theorem engineInv_mod (fi2 fi : FsInfo) (hr : fi2.read = fi.read)
    (hb : fi2.other.commit_buffer = fi.other.commit_buffer)
    (h : engineInv fi) : engineInv fi2 := by
  obtain ⟨h1, h2, h3, h4, h5⟩ := h
  rw [engineInv, hr, hb]
  exact ⟨h1, h2, h3, h4, h5⟩

theorem shall_calculate_block_offset (p ns : Nat) :
    (shall_calculate_block p ns).offset = p % SHALL_DEV_BLOCK := by
  simp only [shall_calculate_block]

theorem shall_read_data_user_other (fi : FsInfo) (len : Nat) :
    (shall_read_data_user fi len).2.1.other = fi.other :=
  (readData_frame fi len).1

theorem log_overflow_inv {fi : FsInfo} (space : Nat) (now : Timespec)
    (h : engineInv fi) : engineInv (log_overflow fi space now) := by
  simp only [log_overflow]
  repeat'
    first
      | split
      | exact h
      | apply add_blob_inv
      | apply add_padding_inv
      | apply need_commit_inv
      | apply shall_write_data_inv
      | apply engineInv_mod _ _ rfl rfl

theorem shall_log_recovery_inv {fi : FsInfo} (now : Timespec)
    (h : engineInv fi) : engineInv (shall_log_recovery fi now) := by
  simp only [shall_log_recovery]
  repeat'
    first
      | split
      | exact h
      | apply add_blob_inv
      | apply add_padding_inv
      | apply need_commit_inv
      | apply shall_write_data_inv
      | apply engineInv_mod _ _ rfl rfl

theorem append_store_inv {fi : FsInfo} (lh : DevHeader) (creds : DevCreds)
    (file1 file2 payload : List Nat) (flags padding : Nat) (now : Timespec)
    (h : engineInv fi) :
    engineInv (append_store fi lh creds file1 file2 payload
      flags padding now) := by
  simp only [append_store]
  repeat'
    first
      | split
      | exact h
      | apply add_blob_inv
      | apply add_padding_inv
      | apply need_commit_inv
      | apply shall_write_data_inv
      | apply engineInv_mod _ _ rfl rfl

theorem append_out_noerror_inv {fi : FsInfo} (h : engineInv fi) :
    engineInv (append_out_noerror fi) := by
  unfold append_out_noerror
  split
  · exact engineInv_mod _ _ rfl rfl h
  · exact h

theorem append_space_and_store_inv {fi : FsInfo} (lh : DevHeader)
    (creds : DevCreds) (file1 file2 payload : List Nat)
    (flags padding next_header : Nat) (now : Timespec) (h : engineInv fi) :
    engineInv (append_space_and_store fi lh creds file1 file2 payload
      flags padding next_header now).2 := by
  simp only [append_space_and_store]
  split
  · split
    · exact append_out_noerror_inv (log_overflow_inv _ now h)
    · exact log_overflow_inv _ now h
  · exact append_store_inv lh creds file1 file2 payload flags padding now h

theorem append_logs_inv {fi : FsInfo} (operation result : Int)
    (flags0 : Nat) (creds : DevCreds) (file1 file2 payload : List Nat)
    (now : Timespec) (h : engineInv fi) :
    engineInv (append_logs fi operation result flags0 creds
      file1 file2 payload now).2 := by
  simp only [append_logs]
  split
  · split
    · exact h
    · split
      · exact h
      · split
        · exact h
        · exact append_space_and_store_inv _ _ _ _ _ _ _ _ now h
  · exact append_space_and_store_inv _ _ _ _ _ _ _ _ now h

theorem get_log_devheader_inv {fi : FsInfo} (h : engineInv fi) :
    engineInv (get_log_devheader fi).2 := by
  simp only [get_log_devheader]
  split
  · exact readData_inv _ h
  · split
    · exact readData_inv _ h
    · split
      · exact readData_inv _ h
      · split
        · exact readData_inv _ h
        · exact readData_inv _ h

theorem get_log_devheader_other (fi : FsInfo) :
    (get_log_devheader fi).2.other = fi.other := by
  simp only [get_log_devheader]
  have := (readData_frame fi HEADER_SIZE).1
  split
  · exact this
  · split
    · exact this
    · split
      · exact this
      · split
        · exact this
        · exact this

theorem restore_inv {fi fi2 : FsInfo} (h : engineInv fi)
    (hother : fi2.other = fi.other) :
    engineInv { fi2 with read := fi.read } := by
  obtain ⟨h1, h2, h3, h4, h5⟩ := h
  refine ⟨h1, h2, h3, h4, ?_⟩
  dsimp only
  rw [hother]
  exact h5

theorem bin_loop_inv (fuel : Nat) :
    ∀ (fi : FsInfo) (space done : Nat), engineInv fi →
      engineInv (bin_loop fi space done fuel).1 := by
  induction fuel with
  | zero => intro fi space done h; exact h
  | succ n ih =>
    intro fi space done h
    rw [bin_loop]
    split
    · dsimp only
      split
      · exact restore_inv h (get_log_devheader_other fi)
      · split
        · exact restore_inv h (get_log_devheader_other fi)
        · split
          · split
            · apply restore_inv h
              rw [shall_read_data_user_other, get_log_devheader_other]
            · split
              · apply restore_inv h
                rw [shall_read_data_user_other, get_log_devheader_other]
              · exact ih _ _ _
                  (shall_read_data_user_inv _ (get_log_devheader_inv h))
          · exact ih _ _ _ (get_log_devheader_inv h)
    · exact h

theorem shall_bin_logs_inv {fi : FsInfo} (space : Nat) (now : Timespec)
    (h : engineInv fi) : engineInv (shall_bin_logs fi space now).2 := by
  simp only [shall_bin_logs]
  split
  · exact h
  · split
    · exact shall_log_recovery_inv now (bin_loop_inv _ fi space 0 h)
    · split
      · exact shall_log_recovery_inv now (bin_loop_inv _ fi space 0 h)
      · exact bin_loop_inv _ fi space 0 h

theorem shall_mark_read_other (fi : FsInfo) (len : Nat) :
    (shall_mark_read fi len).2.other = fi.other := by
  simp only [shall_mark_read]
  exact (readData_frame fi _).1

theorem delete_loop_inv (fuel : Nat) :
    ∀ (fi : FsInfo) (skip done : Nat), engineInv fi →
      engineInv (delete_loop fi skip done fuel).1 := by
  induction fuel with
  | zero => intro fi skip done h; exact h
  | succ n ih =>
    intro fi skip done h
    rw [delete_loop]
    split
    · dsimp only
      split
      · exact restore_inv h (get_log_devheader_other fi)
      · split
        · exact restore_inv h (get_log_devheader_other fi)
        · split
          · split
            · apply restore_inv h
              rw [shall_mark_read_other, get_log_devheader_other]
            · exact ih _ _ _
                (shall_mark_read_inv _ (get_log_devheader_inv h))
          · exact ih _ _ _ (get_log_devheader_inv h)
    · exact h

theorem shall_delete_logs_inv {fi : FsInfo} (skip : Nat) (now : Timespec)
    (h : engineInv fi) : engineInv (shall_delete_logs fi skip now).2 := by
  simp only [shall_delete_logs]
  split
  · exact h
  · split
    · exact shall_log_recovery_inv now (delete_loop_inv _ fi skip 0 h)
    · split
      · exact shall_log_recovery_inv now (delete_loop_inv _ fi skip 0 h)
      · exact delete_loop_inv _ fi skip 0 h

theorem update_sb_loop_frame (fuel : Nat) :
    ∀ (fi : FsInfo) (which diff : Nat),
      (update_sb_loop fi which diff fuel).1.read = fi.read ∧
      (update_sb_loop fi which diff fuel).1.other = fi.other := by
  induction fuel with
  | zero => intro fi which diff; exact ⟨rfl, rfl⟩
  | succ n ih =>
    intro fi which diff
    unfold update_sb_loop
    obtain ⟨i1, i2⟩ := ih (shall_write_superblock fi which) _ diff
    constructor
    · rw [i1]; rfl
    · rw [i2]; rfl

theorem mount_state_inv (opts : EngineOptions) (sb : DevSuper)
    (dev : Nat → Nat → Nat) (now : Timespec) :
    engineInv (mount_state opts sb dev now) := by
  unfold mount_state shall_update_superblock
  dsimp only
  obtain ⟨i1, i2⟩ := update_sb_loop_frame
    (if 7 > sb.num_superblocks then sb.num_superblocks else 7) _ 0
    (sb.num_superblocks /
      (if 7 > sb.num_superblocks then sb.num_superblocks else 7))
  refine ⟨?_, ?_, ?_, ?_, ?_⟩
  · dsimp only
    rw [i1]
  · dsimp only
    rw [i1]
  · dsimp only
    rw [i1]
    dsimp only
    rw [shall_calculate_block_offset]
    exact Nat.mod_lt _ (by decide)
  · dsimp only
    rw [i1]
    dsimp only
    rw [shall_calculate_block_offset]
    exact Nat.mod_lt _ (by decide)
  · dsimp only
    rw [i1, i2]
    dsimp only
    omega

/-- Invariant theorem: every reachable state at a public-operation
boundary satisfies the engine invariant. -/
theorem reachable_engineInv {fi : FsInfo} (h : Reachable fi) :
    engineInv fi := by
  induction h with
  | mount opts sb dev now physical_size n hvalid hupd =>
    exact mount_state_inv opts sb dev now
  | append fi operation result flags creds file1 file2 payload now h ih =>
    exact append_logs_inv operation result flags creds file1 file2
      payload now ih
  | append_resumed fi lh creds file1 file2 payload flags padding now h ih =>
    exact append_store_inv lh creds file1 file2 payload flags padding now ih
  | write_data fi why now h ih => exact shall_write_data_inv why now ih
  | read_kernel fi len h ih => exact shall_read_data_kernel_inv len ih
  | read_user fi len h ih => exact shall_read_data_user_inv len ih
  | mark_read fi len h ih => exact shall_mark_read_inv len ih
  | bin_logs fi space now h ih => exact shall_bin_logs_inv space now ih
  | delete_logs fi skip now h ih => exact shall_delete_logs_inv skip now ih

/-! ## Claim C1 -/

/-- C1: For every reachable engine state at the public-operation boundary
(after mount initialisation and after each completed append_logs,
shall_write_data, shall_read_data_kernel / shall_read_data_user,
shall_mark_read, shall_bin_logs or shall_delete_logs), the accounting
identity committed + (buffer_written - buffer_read) = data_length
holds. -/
theorem C1_accounting_identity {fi : FsInfo} (h : Reachable fi) :
    fi.read.committed +
      (fi.read.buffer_written - fi.read.buffer_read) =
    fi.read.data_length := by
  obtain ⟨h1, h2, h3, h4, h5⟩ := reachable_engineInv h
  omega


/-! ## Claim C3 -/

/-- The tools' byte-offset superblock location is the kernel's block
location scaled to bytes, plus the in-block offset 3072 of the
superblock structure. -/
theorem tools_loc_eq (n : Nat) :
    tools_superblock_location n =
      SHALL_DEV_BLOCK * shall_superblock_location n + 3072 := by
  simp only [tools_superblock_location, shall_superblock_location,
    SHALL_DEV_BLOCK]
  ring

/-- C3: Any superblock whose other fields pass all other checks and
which satisfies L(num_superblocks-1) * 4096 + 1024 ≤ device_size is
accepted by the kernel check of shall_read_superblock, and the tools'
shall_check_sb does not signal the LASTSB defect on it.  The kernel
check compares strictly, but under the block-multiple device size
(enforced by the other checks) the bound is equivalent; the equality
case, the checked region ending exactly at device_size, cannot occur for
a block-multiple device size and is accepted vacuously. -/
theorem C3_lastsb_accept (ds : DevSuper) (physical n : Nat) (sbd : SbData)
    (eod : Nat)
    (hother : shall_read_superblock_other_checks ds physical n = true)
    (hbound : SHALL_DEV_BLOCK *
        shall_superblock_location (ds.num_superblocks - 1) + 1024 ≤
      ds.device_size)
    (hmod : sbd.device_size % SHALL_DEV_BLOCK = 0)
    (hbound2 : SHALL_DEV_BLOCK *
        shall_superblock_location (sbd.num_superblocks - 1) + 1024 ≤
      sbd.device_size) :
    shall_read_superblock_valid ds physical n = true ∧
    shall_check_sb sbd eod &&& shall_check_lastsb = 0 := by
  constructor
  · rw [shall_read_superblock_valid, decide_eq_true_eq]
    rw [shall_read_superblock_other_checks, decide_eq_true_eq] at hother
    obtain ⟨o1, o2, o3, o4, o5, o6, o7, o8, o9, o10, o11, o12, o13, o14,
      o15, o16⟩ := hother
    refine ⟨o1, o2, o3, o4, o5, o6, o7, o8, o9, o10, o11, o12, o13, o14,
      o15, o16, ?_⟩
    simp only [SHALL_DEV_BLOCK] at o7 hbound ⊢
    omega
  · have hbit : ∀ a : Nat, a &&& 1024 = 0 ↔ a.testBit 10 = false := by
      intro a
      have h := Nat.and_two_pow a 10
      norm_num at h
      rw [h]
      cases a.testBit 10 <;> simp
    have key : ∀ a b : Nat, a &&& 1024 = 0 → b &&& 1024 = 0 →
        (a ||| b) &&& 1024 = 0 := by
      intro a b ha hb
      rw [hbit] at ha hb ⊢
      rw [Nat.testBit_lor, ha, hb]
      rfl
    have hfree : ∀ (c : Bool) (k : Nat), k &&& 1024 = 0 →
        checkBit c k &&& 1024 = 0 := by
      intro c k hk
      cases c
      · simp [checkBit]
      · simpa [checkBit] using hk
    have hlast : ¬ (tools_superblock_location (sbd.num_superblocks - 1) +
        1024 > sbd.device_size) := by
      rw [tools_loc_eq]
      simp only [SHALL_DEV_BLOCK] at hmod hbound2 ⊢
      omega
    simp only [shall_check_sb, shall_check_lastsb]
    repeat' apply key
    all_goals
      first
        | exact hfree _ _ (by decide)
        | (rw [decide_eq_false hlast]; decide)


/-! ## Claim C2 -/

/-- C2 (amended): For every mount attempt where the selected superblock
(superblock 0, or the first valid alternate found by scanning) has the
UPDATE flag set, the mount is refused with error EAGAIN -- not EBUSY as
the spec states: shall_fill_super sets err = -EAGAIN on the UPDATE
path.  (The userspace tool shall_open_device does use EBUSY for its own
UPDATE refusal, but the claim cites the kernel mount path.) -/
theorem C2_update_refused_eagain (sbs : Nat → DevSuper) (physical : Nat)
    (h : (shall_read_superblock_valid (sbs 0) physical 0 = true ∧
            (sbs 0).flags &&& SHALL_SB_UPDATE ≠ 0) ∨
         (shall_read_superblock_valid (sbs 0) physical 0 = false ∧
            ∃ n, search_superblock sbs physical = some n ∧
              (sbs n).flags &&& SHALL_SB_UPDATE ≠ 0)) :
    shall_fill_super_select sbs physical = -EAGAIN := by
  unfold shall_fill_super_select
  rcases h with ⟨hv, hu⟩ | ⟨hv, n, hs, hu⟩
  · rw [if_pos hv]
    simp only [Option.elim]
    rw [if_pos hu]
  · rw [if_neg (by simp [hv]), hs]
    simp only [Option.elim]
    rw [if_pos hu]


/-! ## Claim C10 -/

/-- C10 (amended): For every call to shall_read_data_kernel or
shall_read_data_user requesting strictly more bytes than the current
data_length, the call returns 0 and leaves the state unchanged; but
shall_mark_read instead clamps the request to data_length and behaves
exactly as a request for data_length bytes, consuming everything and
returning data_length. -/
theorem C10_overlong_requests (fi : FsInfo) (len : Nat)
    (hlen : len > fi.read.data_length) :
    shall_read_data_kernel fi len = (0, fi, []) ∧
    shall_read_data_user fi len = (0, fi, []) ∧
    shall_mark_read fi len = shall_mark_read fi fi.read.data_length := by
  have hr : readData fi len = (0, fi, []) := by
    unfold readData
    dsimp only
    rw [if_neg (show ¬ (len < 1) by omega), if_pos hlen]
  refine ⟨hr, hr, ?_⟩
  unfold shall_mark_read
  dsimp only
  rw [if_pos hlen, ite_self]


/-! ## Claim C6 -/

/-- The binary-log loop never decreases the byte count, and when it
returns its entry count unchanged the read cursor is back where it
started (every completed iteration adds at least one byte). -/
theorem bin_loop_mono (fuel : Nat) :
    ∀ (fi : FsInfo) (space done : Nat),
      done ≤ (bin_loop fi space done fuel).2.1 ∧
      ((bin_loop fi space done fuel).2.1 = done →
        (bin_loop fi space done fuel).1.read = fi.read) := by
  induction fuel with
  | zero => intro fi space done; exact ⟨Nat.le_refl _, fun _ => rfl⟩
  | succ n ih =>
    intro fi space done
    rw [bin_loop]
    split
    · dsimp only
      split
      · exact ⟨Nat.le_refl _, fun _ => rfl⟩
      · split
        · exact ⟨Nat.le_refl _, fun _ => rfl⟩
        · split
          · split
            · exact ⟨Nat.le_refl _, fun _ => rfl⟩
            · split
              · exact ⟨Nat.le_refl _, fun _ => rfl⟩
              · have h := ih (shall_read_data_user (get_log_devheader fi).2
                    ((get_log_devheader fi).1.toNat - HEADER_SIZE)).2.1
                  (space - (get_log_devheader fi).1.toNat)
                  (done + (get_log_devheader fi).1.toNat)
                refine ⟨Nat.le_trans (Nat.le_add_right _ _) h.1,
                  fun he => ?_⟩
                exfalso
                have h1 := h.1
                omega
          · have h := ih (get_log_devheader fi).2
                (space - (get_log_devheader fi).1.toNat)
                (done + (get_log_devheader fi).1.toNat)
            refine ⟨Nat.le_trans (Nat.le_add_right _ _) h.1, fun he => ?_⟩
            exfalso
            have h1 := h.1
            omega
    · exact ⟨Nat.le_refl _, fun _ => rfl⟩

/-- shall_bin_logs restores the read cursor whenever it returns an
error (a negative value is only returned when no whole record was
delivered). -/
theorem shall_bin_logs_restore (fi : FsInfo) (space : Nat) (now : Timespec)
    (h : (shall_bin_logs fi space now).1 < 0) :
    (shall_bin_logs fi space now).2.read = fi.read := by
  unfold shall_bin_logs at h ⊢
  by_cases h1 : space < 1
  · rw [if_pos h1] at h
    exfalso
    dsimp only at h
    omega
  · rw [if_neg h1] at h ⊢
    dsimp only at h ⊢
    cases hm : (bin_loop fi space 0 (space + 1)).2.2 with
    | none =>
      rw [hm] at h
      dsimp only at h
      exfalso
      omega
    | some err =>
      rw [hm] at h
      dsimp only at h ⊢
      by_cases h2 : (bin_loop fi space 0 (space + 1)).2.1 > 0
      · rw [if_pos h2] at h
        dsimp only at h
        exfalso
        omega
      · rw [if_neg h2] at h ⊢
        dsimp only
        exact (bin_loop_mono (space + 1) fi space 0).2 (by omega)

/-- Whole-record delivery: `Delivered fi n g` says that starting from
state fi the binary-log loop can deliver some sequence of whole records
totalling n bytes and arrive at state g.  Each step consumes one record
exactly as the loop body does: the header through get_log_devheader and,
when the record carries data (next_header > HEADER_SIZE), the body
through shall_read_data_user. -/
inductive Delivered : FsInfo → Nat → FsInfo → Prop where
  | refl (fi : FsInfo) : Delivered fi 0 fi
  | step_bare (fi g : FsInfo) (n : Nat)
      (h1 : 0 < (get_log_devheader fi).1)
      (h2 : ¬ (get_log_devheader fi).1.toNat > HEADER_SIZE)
      (h : Delivered (get_log_devheader fi).2 n g) :
      Delivered fi ((get_log_devheader fi).1.toNat + n) g
  | step_data (fi g : FsInfo) (n : Nat)
      (h1 : 0 < (get_log_devheader fi).1)
      (h2 : (get_log_devheader fi).1.toNat > HEADER_SIZE)
      (h3 : ¬ (shall_read_data_user (get_log_devheader fi).2
          ((get_log_devheader fi).1.toNat - HEADER_SIZE)).1 < 0)
      (h4 : ¬ (shall_read_data_user (get_log_devheader fi).2
          ((get_log_devheader fi).1.toNat - HEADER_SIZE)).1 = 0)
      (h : Delivered (shall_read_data_user (get_log_devheader fi).2
          ((get_log_devheader fi).1.toNat - HEADER_SIZE)).2.1 n g) :
      Delivered fi ((get_log_devheader fi).1.toNat + n) g

/-- A failing exit of the binary-log loop delivered exactly the
accumulated whole records: the byte count grew by the bytes of a chain
of delivered records, and the read cursor of the exit state is restored
to the state reached after that chain, i.e. to the start of the record
whose processing failed. -/
theorem bin_loop_delivered (fuel : Nat) :
    ∀ (fi : FsInfo) (space done : Nat) (err : Int),
      (bin_loop fi space done fuel).2.2 = some err →
      ∃ g n, Delivered fi n g ∧
        (bin_loop fi space done fuel).2.1 = done + n ∧
        (bin_loop fi space done fuel).1.read = g.read := by
  induction fuel with
  | zero =>
    intro fi space done err h
    rw [bin_loop] at h
    exact Option.noConfusion h
  | succ m ih =>
    intro fi space done err h
    rw [bin_loop] at h ⊢
    by_cases hs : space ≥ HEADER_SIZE
    · rw [if_pos hs] at h ⊢
      dsimp only at h ⊢
      by_cases h1 : (get_log_devheader fi).1 ≤ 0
      · rw [if_pos h1] at h ⊢
        exact ⟨fi, 0, Delivered.refl fi, rfl, rfl⟩
      · rw [if_neg h1] at h ⊢
        try dsimp only at h ⊢
        by_cases h2 : space < (get_log_devheader fi).1.toNat
        · rw [if_pos h2] at h ⊢
          exact ⟨fi, 0, Delivered.refl fi, rfl, rfl⟩
        · rw [if_neg h2] at h ⊢
          try dsimp only at h ⊢
          by_cases h3 : (get_log_devheader fi).1.toNat > HEADER_SIZE
          · rw [if_pos h3] at h ⊢
            try dsimp only at h ⊢
            by_cases h4 : (shall_read_data_user (get_log_devheader fi).2
                ((get_log_devheader fi).1.toNat - HEADER_SIZE)).1 < 0
            · rw [if_pos h4] at h ⊢
              exact ⟨fi, 0, Delivered.refl fi, rfl, rfl⟩
            · rw [if_neg h4] at h ⊢
              try dsimp only at h ⊢
              by_cases h5 : (shall_read_data_user (get_log_devheader fi).2
                  ((get_log_devheader fi).1.toNat - HEADER_SIZE)).1 = 0
              · rw [if_pos h5] at h ⊢
                exact ⟨fi, 0, Delivered.refl fi, rfl, rfl⟩
              · rw [if_neg h5] at h ⊢
                obtain ⟨g, n, hD, hsum, hread⟩ := ih
                  (shall_read_data_user (get_log_devheader fi).2
                    ((get_log_devheader fi).1.toNat - HEADER_SIZE)).2.1
                  (space - (get_log_devheader fi).1.toNat)
                  (done + (get_log_devheader fi).1.toNat) err h
                exact ⟨g, (get_log_devheader fi).1.toNat + n,
                  Delivered.step_data fi g n (by omega) h3 h4 h5 hD,
                  by omega, hread⟩
          · rw [if_neg h3] at h ⊢
            obtain ⟨g, n, hD, hsum, hread⟩ := ih (get_log_devheader fi).2
              (space - (get_log_devheader fi).1.toNat)
              (done + (get_log_devheader fi).1.toNat) err h
            exact ⟨g, (get_log_devheader fi).1.toNat + n,
              Delivered.step_bare fi g n (by omega) h3 hD,
              by omega, hread⟩
    · rw [if_neg hs] at h
      exact Option.noConfusion h

/-- C6 (amended): shall_bin_logs never advances the read cursor past a
record that was not fully delivered.  Whenever the call returns a
negative value the cursor is exactly where it started; when already the
first record does not fit in the caller's space, the call restores the
cursor but returns -EFBIG -- not the accumulated byte count 0 that the
claim describes; and on any failing exit of the loop after at least one
whole record was delivered, the call returns the accumulated byte count
(the total size of the delivered records) and hands the recovery-marker
attempt a state whose read cursor is restored to the start of the
failing record, i.e. to the cursor reached after the delivered
records. -/
theorem C6_nofit_restores (fi : FsInfo) (space : Nat) (now : Timespec) :
    ((shall_bin_logs fi space now).1 < 0 →
      (shall_bin_logs fi space now).2.read = fi.read) ∧
    (HEADER_SIZE ≤ space →
      0 < (get_log_devheader fi).1 →
      space < (get_log_devheader fi).1.toNat →
      (shall_bin_logs fi space now).1 = -EFBIG ∧
      (shall_bin_logs fi space now).2.read = fi.read) ∧
    (∀ err : Int, 1 ≤ space →
      (bin_loop fi space 0 (space + 1)).2.2 = some err →
      0 < (bin_loop fi space 0 (space + 1)).2.1 →
      (shall_bin_logs fi space now).1 =
        ((bin_loop fi space 0 (space + 1)).2.1 : Int) ∧
      (shall_bin_logs fi space now).2 =
        shall_log_recovery (bin_loop fi space 0 (space + 1)).1 now ∧
      ∃ g, Delivered fi ((bin_loop fi space 0 (space + 1)).2.1) g ∧
        (bin_loop fi space 0 (space + 1)).1.read = g.read) := by
  refine ⟨shall_bin_logs_restore fi space now, fun hsp hpos hlt => ?_,
    fun err hsp1 hsome hacc => ?_⟩
  · unfold shall_bin_logs
    rw [if_neg (show ¬ space < 1 by simp only [HEADER_SIZE] at hsp; omega)]
    try dsimp only
    rw [bin_loop]
    rw [if_pos hsp]
    try dsimp only
    rw [if_neg (show ¬ (get_log_devheader fi).1 ≤ 0 by omega)]
    try dsimp only
    rw [if_pos hlt]
    try dsimp only
    rw [if_neg (show ¬ (0 : Nat) > 0 by omega)]
    exact ⟨rfl, rfl⟩
  · obtain ⟨g, n, hD, hsum, hread⟩ :=
      bin_loop_delivered (space + 1) fi space 0 err hsome
    have hacc' : (bin_loop fi space 0 (space + 1)).2.1 > 0 := hacc
    have hn : (bin_loop fi space 0 (space + 1)).2.1 = n := by omega
    refine ⟨?_, ?_, g, by rw [hn]; exact hD, hread⟩
    · unfold shall_bin_logs
      rw [if_neg (show ¬ space < 1 by omega)]
      try dsimp only
      rw [hsome]
      try dsimp only
      rw [if_pos hacc']
    · unfold shall_bin_logs
      rw [if_neg (show ¬ space < 1 by omega)]
      try dsimp only
      rw [hsome]
      try dsimp only
      rw [if_pos hacc']


/-! ## Claim C8 -/

theorem shall_write_data_eq (fi : FsInfo) (why : Nat) (now : Timespec)
    (hw : why ≤ 2) :
    shall_write_data fi why now =
      write_loop fi false now (fi.read.data_length + 1) := by
  unfold shall_write_data
  rw [if_neg (by omega)]

/-- Resetting already-zero buffer indexes is the identity. -/
theorem rwread_reset_eq (r : RwRead) (h1 : r.buffer_read = 0)
    (h2 : r.buffer_written = 0) :
    ({ r with buffer_read := 0, buffer_written := 0 } : RwRead) = r := by
  cases r
  dsimp only at h1 h2 ⊢
  subst h1
  subst h2
  rfl

theorem write_finish_post (fi : FsInfo) (done : Bool) (now : Timespec) :
    (write_finish fi done now).read.committed = fi.read.committed ∧
    (write_finish fi done now).read.data_length = fi.read.data_length ∧
    (write_finish fi done now).read.buffer_read = 0 ∧
    (write_finish fi done now).read.buffer_written = 0 := by
  unfold write_finish
  dsimp only
  split
  · split <;> exact ⟨rfl, rfl, rfl, rfl⟩
  · exact ⟨rfl, rfl, rfl, rfl⟩

theorem write_step_frame (fi : FsInfo) :
    (write_step fi).ro = fi.ro ∧
    (write_step fi).options = fi.options ∧
    (write_step fi).other = fi.other ∧
    (write_step fi).lq = fi.lq ∧
    (write_step fi).sb_writes = fi.sb_writes ∧
    (write_step fi).read.data_length = fi.read.data_length ∧
    (write_step fi).read.committed = fi.read.committed + write_todo fi := by
  unfold write_step
  dsimp only
  split <;> exact ⟨rfl, rfl, rfl, rfl, rfl, rfl, rfl⟩

theorem write_todo_pos (fi : FsInfo) (hinv : engineInv fi)
    (hlt : fi.read.committed < fi.read.data_length) :
    0 < write_todo fi := by
  obtain ⟨h1, h2, h3, h4, h5⟩ := hinv
  simp only [write_todo, SHALL_DEV_BLOCK] at *
  omega

theorem write_loop_immediate (fi : FsInfo) (done : Bool) (now : Timespec)
    (fuel : Nat) (hc : fi.read.committed ≥ fi.read.data_length) :
    write_loop fi done now (fuel + 1) = (0, write_finish fi done now) := by
  rw [write_loop, if_pos hc]

theorem write_finish_false (fi : FsInfo) (now : Timespec) :
    write_finish fi false now =
      { fi with
        other.last_commit := now.sec
        read.buffer_read := 0
        read.buffer_written := 0 } := by
  unfold write_finish
  rfl

/-- After a full write_loop run with enough fuel, everything is
committed and the buffer indexes are reset. -/
theorem write_loop_post (fuel : Nat) :
    ∀ (fi : FsInfo) (done : Bool) (now : Timespec), engineInv fi →
      fi.read.data_length - fi.read.committed < fuel →
      (write_loop fi done now fuel).2.read.committed ≥
        (write_loop fi done now fuel).2.read.data_length ∧
      (write_loop fi done now fuel).2.read.buffer_read = 0 ∧
      (write_loop fi done now fuel).2.read.buffer_written = 0 := by
  induction fuel with
  | zero => intro fi done now _ hg; exact absurd hg (by omega)
  | succ n ih =>
    intro fi done now hinv hg
    rw [write_loop]
    split
    · dsimp only
      obtain ⟨q1, q2, q3, q4⟩ := write_finish_post fi done now
      refine ⟨?_, q3, q4⟩
      rw [q1, q2]
      omega
    · split
      · exfalso
        have := write_todo_pos fi hinv (by omega)
        omega
      · obtain ⟨f1, f2, f3, f4, f5, f6, f7⟩ := write_step_frame fi
        have ht := write_todo_pos fi hinv (by omega)
        exact ih (write_step fi) true now (write_step_inv hinv)
          (by rw [f6, f7]; omega)

/-- The completing superblock write of a flushing commit: version is
bumped by exactly one and a single superblock with index in
[1, num_superblocks) is written, never index 0. -/
theorem write_finish_true (fi : FsInfo) (now : Timespec)
    (hN : 1 < fi.ro.num_superblocks)
    (hrot : fi.other.last_sb_written < fi.ro.num_superblocks) :
    (write_finish fi true now).other.version = fi.other.version + 1 ∧
    ∃ k, (write_finish fi true now).sb_writes = k :: fi.sb_writes ∧
      1 ≤ k ∧ k < fi.ro.num_superblocks ∧
      (write_finish fi true now).other.last_sb_written = k := by
  unfold write_finish
  dsimp only
  rw [if_pos rfl]
  try dsimp only
  split
  · exact ⟨rfl, 1, rfl, Nat.le_refl 1, by omega, rfl⟩
  · refine ⟨rfl, fi.other.last_sb_written + 1, rfl, by omega, by omega,
      rfl⟩

/-- A write_loop run that has something to flush (or already flushed a
block) bumps version by one and writes exactly one superblock at an
index in [1, num_superblocks). -/
theorem write_loop_version (fuel : Nat) :
    ∀ (fi : FsInfo) (done : Bool) (now : Timespec), engineInv fi →
      fi.read.data_length - fi.read.committed < fuel →
      1 < fi.ro.num_superblocks →
      fi.other.last_sb_written < fi.ro.num_superblocks →
      (done = true ∨ fi.read.committed < fi.read.data_length) →
      (write_loop fi done now fuel).2.other.version =
        fi.other.version + 1 ∧
      ∃ k, (write_loop fi done now fuel).2.sb_writes = k :: fi.sb_writes ∧
        1 ≤ k ∧ k < fi.ro.num_superblocks := by
  induction fuel with
  | zero => intro fi done now _ hg; exact absurd hg (by omega)
  | succ n ih =>
    intro fi done now hinv hg hN hrot hflush
    rw [write_loop]
    split
    · dsimp only
      have hdone : done = true := by
        rcases hflush with h | h
        · exact h
        · omega
      subst hdone
      obtain ⟨hv, k, hk, hk1, hk2, _⟩ := write_finish_true fi now hN hrot
      exact ⟨hv, k, hk, hk1, hk2⟩
    · split
      · exfalso
        have := write_todo_pos fi hinv (by omega)
        omega
      · obtain ⟨f1, f2, f3, f4, f5, f6, f7⟩ := write_step_frame fi
        have ht := write_todo_pos fi hinv (by omega)
        have h := ih (write_step fi) true now (write_step_inv hinv)
          (by rw [f6, f7]; omega) (by rw [f1]; exact hN)
          (by rw [f3, f1]; exact hrot) (Or.inl rfl)
        obtain ⟨hv, k, hk, hk1, hk2⟩ := h
        rw [f3] at hv
        rw [f5] at hk
        rw [f1] at hk2
        exact ⟨hv, k, hk, hk1, hk2⟩

/-- C8 (amended): With no intervening append, a commit leaves the engine
fully flushed; a second commit changes only last_commit (and rewrites
the already-zero buffer indexes): the journal contents, the read-side
cursors, version, last_sb_written and the superblock write log are all
unchanged by it.  A commit with something to flush bumps version by
exactly 1 and writes a single superblock at the round-robin index in
[1, num_superblocks), never index 0; a commit with nothing to flush
changes only last_commit and writes no superblock. -/
theorem C8_commit_idempotent (fi : FsInfo) (why1 why2 : Nat)
    (now1 now2 : Timespec) (hinv : engineInv fi) (hw1 : why1 ≤ 2)
    (hw2 : why2 ≤ 2) (hN : 8 < fi.ro.num_superblocks)
    (hrot : fi.other.last_sb_written < fi.ro.num_superblocks) :
    (shall_write_data fi why1 now1).2.read.committed ≥
      (shall_write_data fi why1 now1).2.read.data_length ∧
    (shall_write_data fi why1 now1).2.read.buffer_read = 0 ∧
    (shall_write_data fi why1 now1).2.read.buffer_written = 0 ∧
    (shall_write_data (shall_write_data fi why1 now1).2 why2 now2).2.read =
      (shall_write_data fi why1 now1).2.read ∧
    (shall_write_data (shall_write_data fi why1 now1).2 why2 now2).2.other =
      { (shall_write_data fi why1 now1).2.other with
          last_commit := now2.sec } ∧
    (shall_write_data (shall_write_data fi why1 now1).2 why2
        now2).2.sb_writes =
      (shall_write_data fi why1 now1).2.sb_writes ∧
    (shall_write_data (shall_write_data fi why1 now1).2 why2 now2).2.lq =
      (shall_write_data fi why1 now1).2.lq ∧
    (fi.read.committed < fi.read.data_length →
      (shall_write_data fi why1 now1).2.other.version =
        fi.other.version + 1 ∧
      ∃ k, (shall_write_data fi why1 now1).2.sb_writes =
          k :: fi.sb_writes ∧
        1 ≤ k ∧ k < fi.ro.num_superblocks) ∧
    (fi.read.committed ≥ fi.read.data_length →
      (shall_write_data fi why1 now1).2 =
        { fi with
            other.last_commit := now1.sec
            read.buffer_read := 0
            read.buffer_written := 0 }) := by
  rw [shall_write_data_eq fi why1 now1 hw1]
  obtain ⟨p1, p2, p3⟩ := write_loop_post (fi.read.data_length + 1) fi false
    now1 hinv (by omega)
  rw [shall_write_data_eq _ why2 now2 hw2]
  rw [write_loop_immediate _ false now2 _ p1]
  dsimp only
  rw [write_finish_false]
  refine ⟨p1, p2, p3, ?_, rfl, rfl, rfl, ?_, ?_⟩
  · exact rwread_reset_eq _ p2 p3
  · intro hlt
    exact write_loop_version (fi.read.data_length + 1) fi false now1 hinv
      (by omega) (by omega) hrot (Or.inr hlt)
  · intro hge
    rw [write_loop_immediate fi false now1 fi.read.data_length hge]
    dsimp only
    rw [write_finish_false]


/-! ## Claims C4 and C5: producer-path support lemmas -/

/-- logsize rounds up: the aligned length is at least the length. -/
theorem logsize_ge (a l : Nat) (ha : 0 < a) : l ≤ logsize a l := by
  unfold logsize
  by_contra h
  push_neg at h
  have h1 : (l + a - 1) / a * a ≤ l - 1 := by omega
  have h2 : (l + a - 1) / a ≤ (l - 1) / a :=
    (Nat.le_div_iff_mul_le ha).2 h1
  have h3 : l + a - 1 = (l - 1) + a := by omega
  rw [h3, Nat.add_div_right _ ha] at h2
  omega

theorem le32_length (n : Nat) : (le32 n).length = 4 := by
  rw [le32]
  rfl

theorem le32i_length (i : Int) : (le32i i).length = 4 := by
  rw [le32i]
  exact le32_length _

theorem le64_length (n : Nat) : (le64 n).length = 8 := by
  rw [le64]
  simp [le32_length]

theorem header_bytes_length (h : DevHeader) :
    (header_bytes h).length = HEADER_SIZE := by
  rw [header_bytes, header_checkbytes]
  simp [le32_length, le32i_length, le64_length, HEADER_SIZE]

theorem write_finish_frame (fi : FsInfo) (done : Bool) (now : Timespec) :
    (write_finish fi done now).options = fi.options ∧
    (write_finish fi done now).ro = fi.ro ∧
    (write_finish fi done now).lq = fi.lq ∧
    (write_finish fi done now).other.commit_buffer =
      fi.other.commit_buffer ∧
    (write_finish fi done now).other.logged = fi.other.logged ∧
    (write_finish fi done now).other.max_length = fi.other.max_length := by
  unfold write_finish
  dsimp only
  split
  · split <;> exact ⟨rfl, rfl, rfl, rfl, rfl, rfl⟩
  · exact ⟨rfl, rfl, rfl, rfl, rfl, rfl⟩

/-- The device write loop changes neither the journal length accounting
nor anything outside the cursors and superblock bookkeeping. -/
theorem write_loop_frame (fuel : Nat) :
    ∀ (fi : FsInfo) (done : Bool) (now : Timespec),
      (write_loop fi done now fuel).2.read.data_length =
        fi.read.data_length ∧
      (write_loop fi done now fuel).2.options = fi.options ∧
      (write_loop fi done now fuel).2.ro = fi.ro ∧
      (write_loop fi done now fuel).2.lq = fi.lq ∧
      (write_loop fi done now fuel).2.other.commit_buffer =
        fi.other.commit_buffer ∧
      (write_loop fi done now fuel).2.other.logged = fi.other.logged ∧
      (write_loop fi done now fuel).2.other.max_length =
        fi.other.max_length := by
  induction fuel with
  | zero =>
    intro fi done now
    rw [write_loop]
    exact ⟨rfl, rfl, rfl, rfl, rfl, rfl, rfl⟩
  | succ n ih =>
    intro fi done now
    rw [write_loop]
    split
    · dsimp only
      obtain ⟨q1, q2, _, _⟩ := write_finish_post fi done now
      obtain ⟨w1, w2, w3, w4, w5, w6⟩ := write_finish_frame fi done now
      exact ⟨q2, w1, w2, w3, w4, w5, w6⟩
    · split
      · exact ⟨rfl, rfl, rfl, rfl, rfl, rfl, rfl⟩
      · obtain ⟨f1, f2, f3, f4, f5, f6, f7⟩ := write_step_frame fi
        obtain ⟨i1, i2, i3, i4, i5, i6, i7⟩ := ih (write_step fi) true now
        exact ⟨by rw [i1, f6], by rw [i2, f2], by rw [i3, f1],
          by rw [i4, f4], by rw [i5, f3], by rw [i6, f3], by rw [i7, f3]⟩

theorem shall_write_data_frame (fi : FsInfo) (why : Nat) (now : Timespec) :
    (shall_write_data fi why now).2.read.data_length =
      fi.read.data_length ∧
    (shall_write_data fi why now).2.options = fi.options ∧
    (shall_write_data fi why now).2.ro = fi.ro ∧
    (shall_write_data fi why now).2.lq = fi.lq ∧
    (shall_write_data fi why now).2.other.commit_buffer =
      fi.other.commit_buffer ∧
    (shall_write_data fi why now).2.other.logged = fi.other.logged ∧
    (shall_write_data fi why now).2.other.max_length =
      fi.other.max_length := by
  unfold shall_write_data
  split
  · exact ⟨rfl, rfl, rfl, rfl, rfl, rfl, rfl⟩
  · exact write_loop_frame _ fi false now

/-- need_commit guarantees the next blob fits: either the buffer already
has room or it is flushed empty first. -/
theorem need_commit_spec (fi : FsInfo) (len : Nat) (now : Timespec)
    (hinv : engineInv fi) (hlen : len ≤ fi.options.commit_size) :
    engineInv (need_commit fi len now) ∧
    (need_commit fi len now).read.buffer_written + len ≤
      fi.options.commit_size ∧
    (need_commit fi len now).read.data_length = fi.read.data_length ∧
    (need_commit fi len now).options = fi.options ∧
    (need_commit fi len now).ro = fi.ro ∧
    (need_commit fi len now).lq = fi.lq ∧
    (need_commit fi len now).other.logged = fi.other.logged ∧
    (need_commit fi len now).other.max_length = fi.other.max_length := by
  unfold need_commit
  split
  · obtain ⟨w1, w2, w3, w4, w5, w6, w7⟩ := shall_write_data_frame fi 1 now
    have hpost := write_loop_post (fi.read.data_length + 1) fi false now
      hinv (by omega)
    refine ⟨shall_write_data_inv 1 now hinv, ?_, w1, w2, w3, w4, w6, w7⟩
    rw [shall_write_data_eq fi 1 now (by omega)]
    rw [hpost.2.2]
    omega
  · exact ⟨hinv, by omega, rfl, rfl, rfl, rfl, rfl, rfl⟩

/-- add_blob when the blob fits (or is empty): the counters grow by the
blob length and nothing else changes. -/
theorem add_blob_delta (fi : FsInfo) (data : List Nat)
    (hfit : fi.read.buffer_written + data.length ≤
      fi.options.commit_size) :
    (add_blob fi data).read.data_length =
      fi.read.data_length + data.length ∧
    (add_blob fi data).read.buffer_written =
      fi.read.buffer_written + data.length ∧
    (add_blob fi data).options = fi.options ∧
    (add_blob fi data).ro = fi.ro ∧
    (add_blob fi data).lq = fi.lq ∧
    (add_blob fi data).other.logged = fi.other.logged ∧
    (add_blob fi data).other.max_length = fi.other.max_length := by
  unfold add_blob
  split
  · rw [if_neg (by omega)]
    exact ⟨rfl, rfl, rfl, rfl, rfl, rfl, rfl⟩
  · exact ⟨by omega, by omega, rfl, rfl, rfl, rfl, rfl⟩

theorem add_padding_loop_delta (fuel : Nat) :
    ∀ (fi : FsInfo) (len : Nat), len ≤ fuel →
      fi.read.buffer_written + len ≤ fi.options.commit_size →
      (add_padding_loop fi len fuel).read.data_length =
        fi.read.data_length + len ∧
      (add_padding_loop fi len fuel).read.buffer_written =
        fi.read.buffer_written + len ∧
      (add_padding_loop fi len fuel).options = fi.options ∧
      (add_padding_loop fi len fuel).ro = fi.ro ∧
      (add_padding_loop fi len fuel).lq = fi.lq ∧
      (add_padding_loop fi len fuel).other.logged = fi.other.logged ∧
      (add_padding_loop fi len fuel).other.max_length =
        fi.other.max_length := by
  induction fuel with
  | zero =>
    intro fi len h1 h2
    rw [add_padding_loop]
    exact ⟨by omega, by omega, rfl, rfl, rfl, rfl, rfl⟩
  | succ n ih =>
    intro fi len h1 h2
    rw [add_padding_loop]
    split
    · dsimp only
      obtain ⟨b1, b2, b3, b4, b5, b6, b7⟩ :=
        add_blob_delta fi (List.replicate (min len 64) 0)
          (by simp only [List.length_replicate]; omega)
      obtain ⟨i1, i2, i3, i4, i5, i6, i7⟩ :=
        ih (add_blob fi (List.replicate (min len 64) 0))
          (len - min len 64) (by omega)
          (by rw [b2, b3]; simp only [List.length_replicate]; omega)
      refine ⟨?_, ?_, ?_, ?_, ?_, ?_, ?_⟩
      · rw [i1, b1]; simp only [List.length_replicate]; omega
      · rw [i2, b2]; simp only [List.length_replicate]; omega
      · rw [i3, b3]
      · rw [i4, b4]
      · rw [i5, b5]
      · rw [i6, b6]
      · rw [i7, b7]
    · exact ⟨by omega, by omega, rfl, rfl, rfl, rfl, rfl⟩

theorem add_padding_delta (fi : FsInfo) (len : Nat)
    (h2 : fi.read.buffer_written + len ≤ fi.options.commit_size) :
    (add_padding fi len).read.data_length =
      fi.read.data_length + len ∧
    (add_padding fi len).read.buffer_written =
      fi.read.buffer_written + len ∧
    (add_padding fi len).options = fi.options ∧
    (add_padding fi len).ro = fi.ro ∧
    (add_padding fi len).lq = fi.lq ∧
    (add_padding fi len).other.logged = fi.other.logged ∧
    (add_padding fi len).other.max_length = fi.other.max_length :=
  add_padding_loop_delta len fi len (Nat.le_refl _) h2


/-! ## Claim C4 -/

theorem IS_DROP_congr (a b : FsInfo) (h : a.options = b.options) :
    IS_DROP a = IS_DROP b := by
  unfold IS_DROP
  rw [h]

theorem append_out_noerror_frame (fi : FsInfo) :
    (append_out_noerror fi).read.data_length = fi.read.data_length ∧
    (append_out_noerror fi).lq = fi.lq ∧
    (append_out_noerror fi).other.logged = fi.other.logged ∧
    (append_out_noerror fi).options = fi.options := by
  unfold append_out_noerror
  split
  · exact ⟨rfl, rfl, rfl, rfl⟩
  · exact ⟨rfl, rfl, rfl, rfl⟩

/-- What log_overflow does to the observable counters: the drop is
always counted, and the bare-header OVERFLOW marker (logsize(32) bytes
entering the journal, one record logged) is appended exactly when this
is the first drop AND the reserved slot actually fits -- the source
logs an internal error and appends nothing otherwise. -/
theorem log_overflow_spec (fi : FsInfo) (space : Nat) (now : Timespec)
    (hinv : engineInv fi) (halign : 0 < fi.ro.log_alignment)
    (hslot : logsize fi.ro.log_alignment HEADER_SIZE ≤
      fi.options.commit_size) :
    (log_overflow fi space now).lq.num_dropped = fi.lq.num_dropped + 1 ∧
    (log_overflow fi space now).lq.extra_space =
      fi.lq.extra_space + space ∧
    (log_overflow fi space now).read.data_length =
      fi.read.data_length +
        (if fi.lq.num_dropped = 0 ∧
            logsize fi.ro.log_alignment HEADER_SIZE +
              fi.read.data_length ≤ fi.ro.data_space
          then logsize fi.ro.log_alignment HEADER_SIZE else 0) ∧
    (log_overflow fi space now).other.logged =
      fi.other.logged +
        (if fi.lq.num_dropped = 0 ∧
            logsize fi.ro.log_alignment HEADER_SIZE +
              fi.read.data_length ≤ fi.ro.data_space
          then 1 else 0) ∧
    (log_overflow fi space now).options = fi.options := by
  have h32 : HEADER_SIZE ≤ logsize fi.ro.log_alignment HEADER_SIZE :=
    logsize_ge _ _ halign
  unfold log_overflow
  dsimp only
  split
  · rename_i hnd
    have hc : ¬ (fi.lq.num_dropped = 0 ∧
        logsize fi.ro.log_alignment HEADER_SIZE +
          fi.read.data_length ≤ fi.ro.data_space) := by
      rintro ⟨h0, _⟩
      omega
    rw [if_neg hc, if_neg hc]
    refine ⟨rfl, rfl, ?_, ?_, rfl⟩ <;> (dsimp only; omega)
  · rename_i hnd
    split
    · rename_i hpar
      have hc : ¬ (fi.lq.num_dropped = 0 ∧
          logsize fi.ro.log_alignment HEADER_SIZE +
            fi.read.data_length ≤ fi.ro.data_space) := by
        rintro ⟨_, hfit⟩
        try dsimp only at hpar
        omega
      rw [if_neg hc, if_neg hc]
      refine ⟨rfl, rfl, ?_, ?_, rfl⟩ <;> (dsimp only; omega)
    · rename_i hpar
      try dsimp only at hpar
      have hcpos : fi.lq.num_dropped = 0 ∧
          logsize fi.ro.log_alignment HEADER_SIZE +
            fi.read.data_length ≤ fi.ro.data_space := ⟨by omega, by omega⟩
      rw [if_pos hcpos, if_pos hcpos]
      try dsimp only
      set f1 : FsInfo :=
        { fi with
          lq.num_dropped := fi.lq.num_dropped + 1
          lq.extra_space := fi.lq.extra_space + space } with hf1
      have hf1r : f1.read.data_length = fi.read.data_length := rfl
      have hf1o : f1.options = fi.options := rfl
      have hf1l : f1.other.logged = fi.other.logged := rfl
      have hf1q : f1.lq.num_dropped = fi.lq.num_dropped + 1 := rfl
      have hf1e : f1.lq.extra_space = fi.lq.extra_space + space := rfl
      have hinv1 : engineInv f1 := engineInv_mod f1 fi rfl rfl hinv
      have hs1 : logsize fi.ro.log_alignment HEADER_SIZE ≤
          f1.options.commit_size := hslot
      obtain ⟨hinv2, m2, m3, m4, m5, m6, m7, m8⟩ :=
        need_commit_spec f1 (logsize fi.ro.log_alignment HEADER_SIZE) now
          hinv1 hs1
      set g1 : FsInfo :=
        need_commit f1 (logsize fi.ro.log_alignment HEADER_SIZE) now
        with hg1
      obtain ⟨b1, b2, b3, b4, b5, b6, b7⟩ :=
        add_blob_delta g1
          (header_bytes (mk_header
            (logsize fi.ro.log_alignment HEADER_SIZE) SHALL_OVERFLOW now 0
            SHALL_LOG_NODATA))
          (by rw [header_bytes_length, m4]; omega)
      set g2 : FsInfo :=
        add_blob g1
          (header_bytes (mk_header
            (logsize fi.ro.log_alignment HEADER_SIZE) SHALL_OVERFLOW now 0
            SHALL_LOG_NODATA)) with hg2
      rw [header_bytes_length] at b1 b2
      have key : ∀ g3 : FsInfo,
          g3.read.data_length =
            fi.read.data_length + logsize fi.ro.log_alignment HEADER_SIZE →
          g3.lq = f1.lq → g3.other.logged = fi.other.logged →
          g3.options = fi.options →
          (let g4 := if g3.read.buffer_written ≥ g3.options.commit_size
              then (shall_write_data g3 1 now).2 else g3
            let g5 : FsInfo :=
              { g4 with other.logged := g4.other.logged + 1 }
            if g5.other.max_length < g5.read.data_length then
              { g5 with other.max_length := g5.read.data_length }
            else g5).lq.num_dropped = fi.lq.num_dropped + 1 ∧
          (let g4 := if g3.read.buffer_written ≥ g3.options.commit_size
              then (shall_write_data g3 1 now).2 else g3
            let g5 : FsInfo :=
              { g4 with other.logged := g4.other.logged + 1 }
            if g5.other.max_length < g5.read.data_length then
              { g5 with other.max_length := g5.read.data_length }
            else g5).lq.extra_space = fi.lq.extra_space + space ∧
          (let g4 := if g3.read.buffer_written ≥ g3.options.commit_size
              then (shall_write_data g3 1 now).2 else g3
            let g5 : FsInfo :=
              { g4 with other.logged := g4.other.logged + 1 }
            if g5.other.max_length < g5.read.data_length then
              { g5 with other.max_length := g5.read.data_length }
            else g5).read.data_length =
            fi.read.data_length + logsize fi.ro.log_alignment HEADER_SIZE ∧
          (let g4 := if g3.read.buffer_written ≥ g3.options.commit_size
              then (shall_write_data g3 1 now).2 else g3
            let g5 : FsInfo :=
              { g4 with other.logged := g4.other.logged + 1 }
            if g5.other.max_length < g5.read.data_length then
              { g5 with other.max_length := g5.read.data_length }
            else g5).other.logged = fi.other.logged + 1 ∧
          (let g4 := if g3.read.buffer_written ≥ g3.options.commit_size
              then (shall_write_data g3 1 now).2 else g3
            let g5 : FsInfo :=
              { g4 with other.logged := g4.other.logged + 1 }
            if g5.other.max_length < g5.read.data_length then
              { g5 with other.max_length := g5.read.data_length }
            else g5).options = fi.options := by
        intro g3 hd hq hl ho
        obtain ⟨w1, w2, w3, w4, w5, w6, w7⟩ :=
          shall_write_data_frame g3 1 now
        dsimp only
        split <;> split <;>
          refine ⟨?_, ?_, ?_, ?_, ?_⟩ <;>
            simp only [w1, w2, w3, w4, w5, w6, w7, hd, hq, hl, ho, hf1q,
              hf1e]
      split
      · rename_i hpad
        obtain ⟨p1, p2, p3, p4, p5, p6, p7⟩ :=
          add_padding_delta g2
            (logsize fi.ro.log_alignment HEADER_SIZE - HEADER_SIZE)
            (by rw [b2, b3, m4]; omega)
        exact key _ (by rw [p1, b1, m3, hf1r]; omega)
          (by rw [p5, b5, m6]) (by rw [p6, b6, m7, hf1l])
          (by rw [p3, b3, m4, hf1o])
      · rename_i hpad
        exact key _ (by rw [b1, m3, hf1r]; omega)
          (by rw [b5, m6]) (by rw [b6, m7, hf1l]) (by rw [b3, m4, hf1o])

/-- C4 (amended): For every append under the DROP overflow policy whose
record (with the reserved bare-header slot) does not fit in the
remaining data_space, the append returns success, the record itself is
not stored, and the drop is counted; but the single OVERFLOW marker
(logsize(32) bytes, timestamped now, one record logged) is appended if
and only if num_dropped was 0 before this append AND the reserved slot
itself still fits (logsize(32) + data_length ≤ data_space) -- a mounted
journal can start with data_length = data_space, where the first drop
appends no marker. -/
theorem C4_drop_overflow (fi : FsInfo) (operation result : Int)
    (flags0 : Nat) (creds : DevCreds) (file1 file2 payload : List Nat)
    (now : Timespec)
    (hinv : engineInv fi) (hdrop : IS_DROP fi = true)
    (halign : 0 < fi.ro.log_alignment)
    (hbuf : (append_size fi.ro.log_alignment (flags0 ||| SHALL_LOG_CREDS)
        file1.length file2.length payload.length).1 ≤
      fi.options.commit_size)
    (hslot : logsize fi.ro.log_alignment HEADER_SIZE ≤
      fi.options.commit_size)
    (hnofit : logsize fi.ro.log_alignment HEADER_SIZE +
        (append_size fi.ro.log_alignment (flags0 ||| SHALL_LOG_CREDS)
          file1.length file2.length payload.length).1 +
        fi.read.data_length > fi.ro.data_space) :
    (append_logs fi operation result flags0 creds file1 file2 payload
        now).1 = 0 ∧
    (append_logs fi operation result flags0 creds file1 file2 payload
        now).2.lq.num_dropped = fi.lq.num_dropped + 1 ∧
    (append_logs fi operation result flags0 creds file1 file2 payload
        now).2.lq.extra_space = fi.lq.extra_space +
      (append_size fi.ro.log_alignment (flags0 ||| SHALL_LOG_CREDS)
        file1.length file2.length payload.length).1 ∧
    (append_logs fi operation result flags0 creds file1 file2 payload
        now).2.read.data_length = fi.read.data_length +
      (if fi.lq.num_dropped = 0 ∧
          logsize fi.ro.log_alignment HEADER_SIZE +
            fi.read.data_length ≤ fi.ro.data_space
        then logsize fi.ro.log_alignment HEADER_SIZE else 0) ∧
    (append_logs fi operation result flags0 creds file1 file2 payload
        now).2.other.logged = fi.other.logged +
      (if fi.lq.num_dropped = 0 ∧
          logsize fi.ro.log_alignment HEADER_SIZE +
            fi.read.data_length ≤ fi.ro.data_space
        then 1 else 0) := by
  unfold append_logs
  try dsimp only
  rw [if_neg (by omega)]
  unfold append_space_and_store
  try dsimp only
  rw [if_pos (by omega)]
  try dsimp only
  obtain ⟨o1, o2, o3, o4, o5⟩ := log_overflow_spec fi
    (append_size fi.ro.log_alignment (flags0 ||| SHALL_LOG_CREDS)
      file1.length file2.length payload.length).1 now hinv halign hslot
  rw [if_pos (show IS_DROP (log_overflow fi
      (append_size fi.ro.log_alignment (flags0 ||| SHALL_LOG_CREDS)
        file1.length file2.length payload.length).1 now) = true from by
    rw [IS_DROP_congr _ fi o5]
    exact hdrop)]
  obtain ⟨a1, a2, a3, a4⟩ := append_out_noerror_frame (log_overflow fi
    (append_size fi.ro.log_alignment (flags0 ||| SHALL_LOG_CREDS)
      file1.length file2.length payload.length).1 now)
  refine ⟨rfl, ?_, ?_, ?_, ?_⟩
  · dsimp only
    rw [a2, o1]
  · dsimp only
    rw [a2, o2]
  · dsimp only
    rw [a1, o3]
  · dsimp only
    rw [a3, o4]

/-! ## Claim C5 -/

theorem add_blob_content (fi : FsInfo) (data : List Nat)
    (hfit : fi.read.buffer_written + data.length ≤
      fi.options.commit_size)
    (hpos : 0 < data.length) :
    (add_blob fi data).other.commit_buffer =
      fi.other.commit_buffer.take fi.read.buffer_written ++ data := by
  unfold add_blob
  rw [if_pos hpos, if_neg (by omega)]

theorem need_commit_cb (fi : FsInfo) (len : Nat) (now : Timespec) :
    (need_commit fi len now).other.commit_buffer =
      fi.other.commit_buffer := by
  unfold need_commit
  split
  · exact (shall_write_data_frame fi 1 now).2.2.2.2.1
  · rfl

theorem add_padding_loop_content (fuel : Nat) :
    ∀ (fi : FsInfo) (len : Nat), len ≤ fuel →
      fi.read.buffer_written + len ≤ fi.options.commit_size →
      fi.read.buffer_written = fi.other.commit_buffer.length →
      (add_padding_loop fi len fuel).other.commit_buffer =
        fi.other.commit_buffer ++ List.replicate len 0 := by
  induction fuel with
  | zero =>
    intro fi len h1 h2 h3
    rw [add_padding_loop]
    have : len = 0 := by omega
    rw [this]
    simp
  | succ n ih =>
    intro fi len h1 h2 h3
    rw [add_padding_loop]
    split
    · rename_i hlen
      dsimp only
      have hrep : (List.replicate (min len 64) 0).length = min len 64 :=
        List.length_replicate _ _
      obtain ⟨b1, b2, b3, b4, b5, b6, b7⟩ :=
        add_blob_delta fi (List.replicate (min len 64) 0)
          (by rw [hrep]; omega)
      have hcon := add_blob_content fi (List.replicate (min len 64) 0)
        (by rw [hrep]; omega) (by rw [hrep]; omega)
      have hres := ih (add_blob fi (List.replicate (min len 64) 0))
        (len - min len 64) (by omega)
        (by rw [b2, b3, hrep]; omega)
        (by rw [b2, hcon, h3, List.take_length, List.length_append])
      rw [hres, hcon, h3, List.take_length, List.append_assoc,
        ← List.replicate_add]
      rw [show min len 64 + (len - min len 64) = len by omega]
    · rename_i hlen
      have : len = 0 := by omega
      rw [this]
      simp

theorem add_padding_content (fi : FsInfo) (len : Nat)
    (h2 : fi.read.buffer_written + len ≤ fi.options.commit_size)
    (h3 : fi.read.buffer_written = fi.other.commit_buffer.length) :
    (add_padding fi len).other.commit_buffer =
      fi.other.commit_buffer ++ List.replicate len 0 :=
  add_padding_loop_content len fi len (Nat.le_refl _) h2 h3

theorem le64_length_pos (n : Nat) : 0 < (le64 n).length := by
  rw [le64_length]
  omega

/-- C5: When the overflow recovery step runs on a state with
num_dropped > 0 and enough ring space for the RECOVER marker plus the
reserved bare-header slot, exactly one RECOVER marker enters the
journal: logsize(40) bytes and one logged record, the header carrying
num_dropped in its result field and the SIZE flag, followed by the
8-byte extra_space payload and the alignment padding; both queue
counters are then zero.  Both consumer drains invoke exactly this step
on the post-drain state whenever the drain loop completes without an
error. -/
theorem C5_recover_marker (fi : FsInfo) (now : Timespec)
    (hinv : engineInv fi)
    (hnd : 0 < fi.lq.num_dropped)
    (halign : 0 < fi.ro.log_alignment)
    (hspace : logsize fi.ro.log_alignment (HEADER_SIZE + 8) +
        logsize fi.ro.log_alignment HEADER_SIZE + fi.read.data_length ≤
      fi.ro.data_space)
    (hbuf : logsize fi.ro.log_alignment (HEADER_SIZE + 8) ≤
      fi.options.commit_size) :
    (shall_log_recovery fi now).lq.num_dropped = 0 ∧
    (shall_log_recovery fi now).lq.extra_space = 0 ∧
    (shall_log_recovery fi now).read.data_length =
      fi.read.data_length +
        logsize fi.ro.log_alignment (HEADER_SIZE + 8) ∧
    (shall_log_recovery fi now).other.logged = fi.other.logged + 1 ∧
    (∃ pre, (shall_log_recovery fi now).other.commit_buffer =
      pre ++
        header_bytes (mk_header
          (logsize fi.ro.log_alignment (HEADER_SIZE + 8)) SHALL_RECOVER
          now (fi.lq.num_dropped : Int) SHALL_LOG_SIZE) ++
        le64 fi.lq.extra_space ++
        List.replicate (logsize fi.ro.log_alignment (HEADER_SIZE + 8) -
          (HEADER_SIZE + 8)) 0) ∧
    (∀ (g : FsInfo) (space : Nat), 1 ≤ space →
      (bin_loop g space 0 (space + 1)).2.2 = none →
      (shall_bin_logs g space now).2 =
        shall_log_recovery (bin_loop g space 0 (space + 1)).1 now) ∧
    (∀ (g : FsInfo) (skip : Nat), 1 ≤ skip →
      (delete_loop g skip 0 (skip + 1)).2.2 = none →
      (shall_delete_logs g skip now).2 =
        shall_log_recovery (delete_loop g skip 0 (skip + 1)).1 now) := by
  have h40 : HEADER_SIZE + 8 ≤
      logsize fi.ro.log_alignment (HEADER_SIZE + 8) :=
    logsize_ge _ _ halign
  have hdrain1 : ∀ (g : FsInfo) (space : Nat), 1 ≤ space →
      (bin_loop g space 0 (space + 1)).2.2 = none →
      (shall_bin_logs g space now).2 =
        shall_log_recovery (bin_loop g space 0 (space + 1)).1 now := by
    intro g space h1 h2
    unfold shall_bin_logs
    rw [if_neg (by omega)]
    dsimp only
    rw [h2]
  have hdrain2 : ∀ (g : FsInfo) (skip : Nat), 1 ≤ skip →
      (delete_loop g skip 0 (skip + 1)).2.2 = none →
      (shall_delete_logs g skip now).2 =
        shall_log_recovery (delete_loop g skip 0 (skip + 1)).1 now := by
    intro g skip h1 h2
    unfold shall_delete_logs
    rw [if_neg (by omega)]
    dsimp only
    rw [h2]
  unfold shall_log_recovery
  try dsimp only
  rw [if_neg (by omega), if_neg (by omega)]
  try dsimp only
  set f1 : FsInfo :=
    { fi with lq.num_dropped := 0, lq.extra_space := 0 } with hf1
  have hf1r : f1.read.data_length = fi.read.data_length := rfl
  have hf1o : f1.options = fi.options := rfl
  have hf1l : f1.other.logged = fi.other.logged := rfl
  have hf1q : f1.lq.num_dropped = 0 := rfl
  have hf1e : f1.lq.extra_space = 0 := rfl
  have hinv1 : engineInv f1 := engineInv_mod f1 fi rfl rfl hinv
  obtain ⟨hinv2, m2, m3, m4, m5, m6, m7, m8⟩ :=
    need_commit_spec f1 (logsize fi.ro.log_alignment (HEADER_SIZE + 8))
      now hinv1 hbuf
  have mcb : (need_commit f1
      (logsize fi.ro.log_alignment (HEADER_SIZE + 8)) now).other.commit_buffer =
      fi.other.commit_buffer := need_commit_cb f1 _ now
  set g1 : FsInfo :=
    need_commit f1 (logsize fi.ro.log_alignment (HEADER_SIZE + 8)) now
    with hg1
  have hbw1 : g1.read.buffer_written ≤ g1.other.commit_buffer.length :=
    hinv2.2.2.2.2
  obtain ⟨b1, b2, b3, b4, b5, b6, b7⟩ :=
    add_blob_delta g1
      (header_bytes (mk_header
        (logsize fi.ro.log_alignment (HEADER_SIZE + 8)) SHALL_RECOVER now
        (fi.lq.num_dropped : Int) SHALL_LOG_SIZE))
      (by rw [header_bytes_length, m4]; omega)
  have bcon := add_blob_content g1
    (header_bytes (mk_header
      (logsize fi.ro.log_alignment (HEADER_SIZE + 8)) SHALL_RECOVER now
      (fi.lq.num_dropped : Int) SHALL_LOG_SIZE))
    (by rw [header_bytes_length, m4]; omega)
    (by rw [header_bytes_length]; decide)
  set g2 : FsInfo :=
    add_blob g1
      (header_bytes (mk_header
        (logsize fi.ro.log_alignment (HEADER_SIZE + 8)) SHALL_RECOVER now
        (fi.lq.num_dropped : Int) SHALL_LOG_SIZE)) with hg2
  rw [header_bytes_length] at b1 b2
  have hbw2 : g2.read.buffer_written = g2.other.commit_buffer.length := by
    rw [b2, bcon, List.length_append, header_bytes_length,
      List.length_take]
    omega
  obtain ⟨c1, c2, c3, c4, c5, c6, c7⟩ :=
    add_blob_delta g2 (le64 fi.lq.extra_space)
      (by rw [le64_length, b2, b3, m4]; omega)
  have ccon := add_blob_content g2 (le64 fi.lq.extra_space)
    (by rw [le64_length, b2, b3, m4]; omega) (le64_length_pos _)
  set g3 : FsInfo := add_blob g2 (le64 fi.lq.extra_space) with hg3
  rw [le64_length] at c1 c2
  rw [hbw2, List.take_length] at ccon
  have hbw3 : g3.read.buffer_written = g3.other.commit_buffer.length := by
    rw [c2, ccon, List.length_append, le64_length, hbw2]
  have hcb3 : g3.other.commit_buffer =
      g1.other.commit_buffer.take g1.read.buffer_written ++
        header_bytes (mk_header
          (logsize fi.ro.log_alignment (HEADER_SIZE + 8)) SHALL_RECOVER
          now (fi.lq.num_dropped : Int) SHALL_LOG_SIZE) ++
        le64 fi.lq.extra_space := by
    rw [ccon, bcon]
  have key : ∀ (g5 : FsInfo) (cb : List Nat),
      g5.read.data_length =
        fi.read.data_length +
          logsize fi.ro.log_alignment (HEADER_SIZE + 8) →
      g5.lq.num_dropped = 0 → g5.lq.extra_space = 0 →
      g5.other.logged = fi.other.logged →
      g5.other.commit_buffer = cb →
      (let g6 := if g5.read.buffer_written ≥ g5.options.commit_size
          then (shall_write_data g5 1 now).2 else g5
        let g7 : FsInfo :=
          { g6 with other.logged := g6.other.logged + 1 }
        if g7.other.max_length < g7.read.data_length then
          { g7 with other.max_length := g7.read.data_length }
        else g7).lq.num_dropped = 0 ∧
      (let g6 := if g5.read.buffer_written ≥ g5.options.commit_size
          then (shall_write_data g5 1 now).2 else g5
        let g7 : FsInfo :=
          { g6 with other.logged := g6.other.logged + 1 }
        if g7.other.max_length < g7.read.data_length then
          { g7 with other.max_length := g7.read.data_length }
        else g7).lq.extra_space = 0 ∧
      (let g6 := if g5.read.buffer_written ≥ g5.options.commit_size
          then (shall_write_data g5 1 now).2 else g5
        let g7 : FsInfo :=
          { g6 with other.logged := g6.other.logged + 1 }
        if g7.other.max_length < g7.read.data_length then
          { g7 with other.max_length := g7.read.data_length }
        else g7).read.data_length =
        fi.read.data_length +
          logsize fi.ro.log_alignment (HEADER_SIZE + 8) ∧
      (let g6 := if g5.read.buffer_written ≥ g5.options.commit_size
          then (shall_write_data g5 1 now).2 else g5
        let g7 : FsInfo :=
          { g6 with other.logged := g6.other.logged + 1 }
        if g7.other.max_length < g7.read.data_length then
          { g7 with other.max_length := g7.read.data_length }
        else g7).other.logged = fi.other.logged + 1 ∧
      (let g6 := if g5.read.buffer_written ≥ g5.options.commit_size
          then (shall_write_data g5 1 now).2 else g5
        let g7 : FsInfo :=
          { g6 with other.logged := g6.other.logged + 1 }
        if g7.other.max_length < g7.read.data_length then
          { g7 with other.max_length := g7.read.data_length }
        else g7).other.commit_buffer = cb := by
    intro g5 cb hd hq he hl hcb
    obtain ⟨w1, w2, w3, w4, w5, w6, w7⟩ := shall_write_data_frame g5 1 now
    dsimp only
    split <;> split <;>
      refine ⟨?_, ?_, ?_, ?_, ?_⟩ <;>
        simp only [w1, w2, w3, w4, w5, w6, w7, hd, hq, he, hl, hcb]
  split
  · rename_i hpad
    obtain ⟨p1, p2, p3, p4, p5, p6, p7⟩ :=
      add_padding_delta g3
        (logsize fi.ro.log_alignment (HEADER_SIZE + 8) -
          (HEADER_SIZE + 8))
        (by rw [c2, b2, c3, b3, m4]; omega)
    have pcon := add_padding_content g3
      (logsize fi.ro.log_alignment (HEADER_SIZE + 8) - (HEADER_SIZE + 8))
      (by rw [c2, b2, c3, b3, m4]; omega) hbw3
    obtain ⟨k1, k2, k3, k4, k5⟩ := key
      (add_padding g3
        (logsize fi.ro.log_alignment (HEADER_SIZE + 8) -
          (HEADER_SIZE + 8)))
      (g1.other.commit_buffer.take g1.read.buffer_written ++
        header_bytes (mk_header
          (logsize fi.ro.log_alignment (HEADER_SIZE + 8)) SHALL_RECOVER
          now (fi.lq.num_dropped : Int) SHALL_LOG_SIZE) ++
        le64 fi.lq.extra_space ++
        List.replicate (logsize fi.ro.log_alignment (HEADER_SIZE + 8) -
          (HEADER_SIZE + 8)) 0)
      (by rw [p1, c1, b1, m3, hf1r]; omega)
      (by rw [congrArg LogQueue.num_dropped p5,
        congrArg LogQueue.num_dropped c5,
        congrArg LogQueue.num_dropped b5,
        congrArg LogQueue.num_dropped m6, hf1q])
      (by rw [congrArg LogQueue.extra_space p5,
        congrArg LogQueue.extra_space c5,
        congrArg LogQueue.extra_space b5,
        congrArg LogQueue.extra_space m6, hf1e])
      (by rw [p6, c6, b6, m7, hf1l])
      (by rw [pcon, hcb3, List.append_assoc, List.append_assoc,
        ← List.append_assoc, ← List.append_assoc])
    exact ⟨k1, k2, k3, k4,
      ⟨g1.other.commit_buffer.take g1.read.buffer_written, k5⟩, hdrain1,
      hdrain2⟩
  · rename_i hpad
    have h40e : logsize fi.ro.log_alignment (HEADER_SIZE + 8) =
        HEADER_SIZE + 8 := by omega
    obtain ⟨k1, k2, k3, k4, k5⟩ := key g3
      (g1.other.commit_buffer.take g1.read.buffer_written ++
        header_bytes (mk_header
          (logsize fi.ro.log_alignment (HEADER_SIZE + 8)) SHALL_RECOVER
          now (fi.lq.num_dropped : Int) SHALL_LOG_SIZE) ++
        le64 fi.lq.extra_space ++
        List.replicate (logsize fi.ro.log_alignment (HEADER_SIZE + 8) -
          (HEADER_SIZE + 8)) 0)
      (by rw [c1, b1, m3, hf1r]; omega)
      (by rw [congrArg LogQueue.num_dropped c5,
        congrArg LogQueue.num_dropped b5,
        congrArg LogQueue.num_dropped m6, hf1q])
      (by rw [congrArg LogQueue.extra_space c5,
        congrArg LogQueue.extra_space b5,
        congrArg LogQueue.extra_space m6, hf1e])
      (by rw [c6, b6, m7, hf1l])
      (by rw [hcb3, h40e]; simp)
    exact ⟨k1, k2, k3, k4,
      ⟨g1.other.commit_buffer.take g1.read.buffer_written, k5⟩, hdrain1,
      hdrain2⟩


/-! ## Concrete fixtures for the claim witnesses and counterexamples

The concrete evaluations below run the embedded functions on explicit
inputs, so the evaluation barriers used to keep the abstract proofs fast
are lifted again here. -/

set_option allowUnsafeReducibility true

attribute [semireducible] shall_read_superblock_valid le32 le64 le32i
  readLe32 readLe64 int32_of crc32_bit crc32_byte crc32_le
  shall_calculate_block calc_loop inc_block devsuper_checkbytes
  checksum_super header_checkbytes checksum_header header_bytes mk_header
  decode_header creds_bytes dev_write write_todo write_step write_finish
  write_loop shall_write_data wrap_ptr_loop wrap_ptr read_todo read_step
  read_committed_loop read_uncommitted read_committed_phase readData

/-- The all-zero block device. -/
def devZero : Nat → Nat → Nat := fun _ _ => 0

/-- Mount options: 30-second, 4096-byte commit buffer, DROP policy,
TOO_BIG logged as a marker. -/
def optsDrop : EngineOptions :=
  { commit_seconds := 30, commit_size := 4096, flags := 0 }

def creds0 : DevCreds :=
  { uid := 0, euid := 0, fsuid := 0, gid := 0, egid := 0, fsgid := 0 }

def ts0 : Timespec := { sec := 1, nsec := 0 }

def ts1 : Timespec := { sec := 2, nsec := 0 }

/-- A 9-superblock geometry: 1057 device blocks of 4096 bytes, with
superblocks at blocks 0, 20, 72, 156, 272, 420, 600, 812 and 1056,
leaving data_space 4292608 bytes (1048 blocks), freshly formatted. -/
def sbBase : DevSuper :=
  { magic1 := SHALL_SB_MAGIC, device_size := 4329472, data_space := 4292608,
    data_start := 0, data_length := 0, max_length := 0, version := 1,
    flags := 1, alignment := 8, num_superblocks := 9, this_superblock := 0,
    new_size := 0, new_alignment := 0, new_superblocks := 0,
    magic2 := SHALL_SB_MAGIC, checksum := 0 }

/-- The checksum of sbBase, as stored in sbGeo. -/
def sbGeoChecksum : Nat := checksum_super sbBase

/-- sbBase with its correct on-disk checksum. -/
def sbGeo : DevSuper := { sbBase with checksum := sbGeoChecksum }

/-- The checksummed region depends on every superblock field except the
checksum itself. -/
theorem checkbytes_ext (a b : DevSuper)
    (e1 : a.magic1 = b.magic1) (e2 : a.device_size = b.device_size)
    (e3 : a.data_space = b.data_space) (e4 : a.data_start = b.data_start)
    (e5 : a.data_length = b.data_length) (e6 : a.max_length = b.max_length)
    (e7 : a.version = b.version) (e8 : a.flags = b.flags)
    (e9 : a.alignment = b.alignment)
    (e10 : a.num_superblocks = b.num_superblocks)
    (e11 : a.this_superblock = b.this_superblock)
    (e12 : a.new_size = b.new_size)
    (e13 : a.new_alignment = b.new_alignment)
    (e14 : a.new_superblocks = b.new_superblocks)
    (e15 : a.magic2 = b.magic2) :
    devsuper_checkbytes a = devsuper_checkbytes b := by
  rw [devsuper_checkbytes, devsuper_checkbytes, e1, e2, e3, e4, e5, e6, e7,
    e8, e9, e10, e11, e12, e13, e14, e15]

theorem sbGeo_checkbytes :
    devsuper_checkbytes sbGeo = devsuper_checkbytes sbBase :=
  checkbytes_ext _ _ rfl rfl rfl rfl rfl rfl rfl rfl rfl rfl rfl rfl rfl
    rfl rfl

theorem sbGeo_checksum_val : sbGeo.checksum = sbGeoChecksum := by
  rw [sbGeo]

/-- sbGeo carries its correct checksum by construction; the proof goes by
congruence, the crc itself is never evaluated. -/
theorem sbGeo_checksum : checksum_super sbGeo = sbGeo.checksum := by
  rw [checksum_super, sbGeo_checkbytes, sbGeo_checksum_val, sbGeoChecksum,
    checksum_super]

/-- sbGeo passes every check of shall_read_superblock. -/
theorem sbGeo_valid : shall_read_superblock_valid sbGeo 4329472 0 = true := by
  rw [shall_read_superblock_valid, decide_eq_true_eq]
  exact ⟨sbGeo_checksum, by decide⟩

/-- sbGeo also passes the check list with the final location check
removed. -/
theorem sbGeo_other :
    shall_read_superblock_other_checks sbGeo 4329472 0 = true := by
  rw [shall_read_superblock_other_checks, decide_eq_true_eq]
  exact ⟨sbGeo_checksum, by decide⟩

/-- The decoded shall_sb_data_t carrying the sbGeo fields. -/
def sbdGeo : SbData :=
  { device_size := 4329472, data_space := 4292608, data_start := 0,
    data_length := 0, max_length := 0, flags := 1, num_superblocks := 9,
    this_superblock := 0, alignment := 8 }

theorem C3_lastsb_accept_witness :
    shall_read_superblock_valid sbGeo 4329472 0 = true ∧
    shall_check_sb sbdGeo 4329472 &&& shall_check_lastsb = 0 :=
  C3_lastsb_accept sbGeo 4329472 0 sbdGeo 4329472 sbGeo_other (by decide)
    (by decide) (by decide)

/-- sbBase with the UPDATE flag also raised (an interrupted tune run). -/
def sbUpdBase : DevSuper :=
  { sbBase with flags := 5 }

def sbUpdChecksum : Nat := checksum_super sbUpdBase

def sbUpd : DevSuper := { sbUpdBase with checksum := sbUpdChecksum }

theorem sbUpd_checkbytes :
    devsuper_checkbytes sbUpd = devsuper_checkbytes sbUpdBase :=
  checkbytes_ext _ _ rfl rfl rfl rfl rfl rfl rfl rfl rfl rfl rfl rfl rfl
    rfl rfl

theorem sbUpd_checksum_val : sbUpd.checksum = sbUpdChecksum := by
  rw [sbUpd]

theorem sbUpd_checksum : checksum_super sbUpd = sbUpd.checksum := by
  rw [checksum_super, sbUpd_checkbytes, sbUpd_checksum_val, sbUpdChecksum,
    checksum_super]

/-- sbUpd is accepted by shall_read_superblock (UPDATE is not checked
there). -/
theorem sbUpd_valid : shall_read_superblock_valid sbUpd 4329472 0 = true := by
  rw [shall_read_superblock_valid, decide_eq_true_eq]
  exact ⟨sbUpd_checksum, by decide⟩

/-- A device whose every superblock slot holds sbUpd. -/
def devUpd : Nat → DevSuper := fun _ => sbUpd

/-- C2 counterexample: on a device whose valid superblock 0 carries the
UPDATE flag, the mount is refused with -EAGAIN, which is not -EBUSY as
the spec claims. -/
theorem C2_counterexample :
    shall_read_superblock_valid (devUpd 0) 4329472 0 = true ∧
    (devUpd 0).flags &&& SHALL_SB_UPDATE ≠ 0 ∧
    shall_fill_super_select devUpd 4329472 = -EAGAIN ∧
    shall_fill_super_select devUpd 4329472 ≠ -EBUSY := by
  have hsel : shall_fill_super_select devUpd 4329472 = -EAGAIN := by
    unfold shall_fill_super_select
    rw [if_pos (show shall_read_superblock_valid (devUpd 0) 4329472 0 = true
      from sbUpd_valid)]
    simp only [Option.elim]
    rw [if_pos (show (devUpd 0).flags &&& SHALL_SB_UPDATE ≠ 0 from
      (by decide))]
  refine ⟨sbUpd_valid, by decide, hsel, ?_⟩
  rw [hsel]
  decide

theorem C2_update_refused_eagain_witness :
    shall_fill_super_select devUpd 4329472 = -EAGAIN :=
  C2_update_refused_eagain devUpd 4329472 (Or.inl ⟨sbUpd_valid, by decide⟩)

/-- The engine state after mounting the freshly formatted sbGeo device
with the default options. -/
def geo_state : FsInfo := mount_state optsDrop sbGeo devZero ts0

theorem C1_accounting_identity_witness :
    geo_state.read.committed +
      (geo_state.read.buffer_written - geo_state.read.buffer_read) =
    geo_state.read.data_length :=
  C1_accounting_identity
    (Reachable.mount optsDrop sbGeo devZero ts0 4329472 0 sbGeo_valid
      (by decide))


/-- sbBase holding 8 bytes of journal data. -/
def sbLen8Base : DevSuper :=
  { sbBase with data_length := 8, max_length := 8 }

def sbLen8Checksum : Nat := checksum_super sbLen8Base

def sbLen8 : DevSuper := { sbLen8Base with checksum := sbLen8Checksum }

theorem sbLen8_checkbytes :
    devsuper_checkbytes sbLen8 = devsuper_checkbytes sbLen8Base :=
  checkbytes_ext _ _ rfl rfl rfl rfl rfl rfl rfl rfl rfl rfl rfl rfl rfl
    rfl rfl

theorem sbLen8_checksum_val : sbLen8.checksum = sbLen8Checksum := by
  rw [sbLen8]

theorem sbLen8_checksum : checksum_super sbLen8 = sbLen8.checksum := by
  rw [checksum_super, sbLen8_checkbytes, sbLen8_checksum_val,
    sbLen8Checksum, checksum_super]

theorem sbLen8_valid :
    shall_read_superblock_valid sbLen8 4329472 0 = true := by
  rw [shall_read_superblock_valid, decide_eq_true_eq]
  exact ⟨sbLen8_checksum, by decide⟩

/-- The engine state after mounting the sbLen8 device: data_length = 8,
committed = 8, empty commit buffer. -/
def len8_state : FsInfo := mount_state optsDrop sbLen8 devZero ts0

/-- C10 counterexample: on the mounted state holding 8 bytes of journal
data, a shall_mark_read request for 16 bytes does not return 0 and does
not leave the read-side state unchanged: the request is clamped to
data_length, the 8 bytes are consumed and 8 is returned. -/
theorem C10_counterexample :
    Reachable len8_state ∧
    16 > len8_state.read.data_length ∧
    (shall_mark_read len8_state 16).1 = 8 ∧
    (shall_mark_read len8_state 16).2.read.data_length = 0 ∧
    (shall_mark_read len8_state 16).2.read ≠ len8_state.read := by
  refine ⟨Reachable.mount optsDrop sbLen8 devZero ts0 4329472 0
    sbLen8_valid (by decide), ?_, ?_, ?_, ?_⟩
  all_goals decide

theorem C10_overlong_requests_witness :
    shall_read_data_kernel len8_state 16 = (0, len8_state, []) ∧
    shall_read_data_user len8_state 16 = (0, len8_state, []) ∧
    shall_mark_read len8_state 16 =
      shall_mark_read len8_state len8_state.read.data_length :=
  C10_overlong_requests len8_state 16 (by decide)


/-- The maxptr cached by shall_fill_super on the sbGeo geometry. -/
def geoMaxptr : DevPtr :=
  { block := 1048, next_super := 0, offset := 4096, n_super := 9 }

/-- Every inc_block image stays strictly below maxptr.block: the wrap
branch returns block 1 and the non-wrapping branches are guarded by the
same bound. -/
theorem inc_block_block_lt (p m : DevPtr) (h1 : 1 < m.block) :
    (inc_block p m).block < m.block := by
  unfold inc_block
  dsimp only
  repeat' split
  all_goals dsimp only at * ; omega

/-- C9 (code_bug evaluation): on the valid sbGeo geometry the mount
initialisation caches maxptr.block = data_space / 4096 = 1048 instead of
the device's 1057 blocks.  Block 1048 is a data block -- it is the image
of the in-range logical offset 1040 * 4096 under shall_calculate_block
-- but no inc_block step can ever reach a block ≥ 1048: advancing one
block from the physical position of logical offset 1039 * 4096 wraps
back to the position of logical offset 0.  The inc_block orbit of the
position of offset 0 therefore visits at most 1040 distinct blocks and
misses block 1048, while the claim requires exactly data_space / 4096 =
1048 distinct blocks. -/
theorem C9_ring_coverage_bug :
    geo_state.ro.maxptr = geoMaxptr ∧
    geoMaxptr.block = 1048 ∧
    geo_state.ro.data_space / SHALL_DEV_BLOCK = 1048 ∧
    geo_state.ro.device_size / SHALL_DEV_BLOCK = 1057 ∧
    1040 * SHALL_DEV_BLOCK < geo_state.ro.data_space ∧
    (shall_calculate_block (1040 * SHALL_DEV_BLOCK) 9).block = 1048 ∧
    (∀ p : DevPtr, (inc_block p geoMaxptr).block < 1048) ∧
    inc_block (shall_calculate_block (1039 * SHALL_DEV_BLOCK) 9) geoMaxptr =
      shall_calculate_block 0 9 := by
  refine ⟨by decide, by decide, by decide, by decide, by decide, by decide,
    ?_, by decide⟩
  intro p
  have h := inc_block_block_lt p geoMaxptr (by decide)
  have e : geoMaxptr.block = 1048 := rfl
  rw [e] at h
  exact h

/-- Mount options with a 100-byte commit buffer (TOO_BIG logged as a
marker). -/
def optsSmall : EngineOptions :=
  { commit_seconds := 30, commit_size := 100, flags := 0 }

/-- Mount options with a 100-byte commit buffer and TOO_BIG=error. -/
def optsSmallErr : EngineOptions :=
  { commit_seconds := 30, commit_size := 100, flags := TOO_BIG_ERROR }

/-- The sbGeo device mounted with the 100-byte commit buffer. -/
def small_state : FsInfo := mount_state optsSmall sbGeo devZero ts0

/-- The sbGeo device mounted with the 100-byte commit buffer and the
TOO_BIG=error policy. -/
def smallErr_state : FsInfo := mount_state optsSmallErr sbGeo devZero ts0

/-- A MOUNT record with one 33-byte filename: 32 + 48 + 4 + 33 = 117
bytes, 120 after alignment, exceeding the 100-byte commit buffer. -/
def c7ok : Int × FsInfo :=
  append_logs small_state SHALL_MOUNT 0 SHALL_LOG_FILE1 creds0
    (List.replicate 33 97) [] [] ts1

def c7err : Int × FsInfo :=
  append_logs smallErr_state SHALL_MOUNT 0 SHALL_LOG_FILE1 creds0
    (List.replicate 33 97) [] [] ts1

/-- C7 (code_bug evaluation): a record of aligned length 120 exceeds
commit_size = 100.  Under TOO_BIG=error the append fails with -EFBIG and
stores nothing, as claimed.  Under the marker policy the append returns
success and appends a TOO_BIG marker header carrying the required size
120 in its result field -- but the marker's declared record length
(next_header = 80, counting the credentials block that the size
computation always includes) exceeds the 32 bytes actually stored,
because the marker's flags are SHALL_LOG_NODATA and the credentials are
therefore never written: the journal gains 32 bytes while the marker
claims 80, so the stream after the marker is misframed. -/
theorem C7_too_big_marker_bug :
    (append_size 8 (SHALL_LOG_FILE1 ||| SHALL_LOG_CREDS) 33 0 0).1 = 120 ∧
    (120 : Nat) > small_state.options.commit_size ∧
    c7err.1 = -EFBIG ∧
    c7err.2.read = smallErr_state.read ∧
    c7err.2.other = smallErr_state.other ∧
    c7ok.1 = 0 ∧
    c7ok.2.read.buffer_written = 32 ∧
    c7ok.2.read.data_length = 32 ∧
    c7ok.2.other.commit_buffer.length = 32 ∧
    (decode_header c7ok.2.other.commit_buffer).next_header = 80 ∧
    (decode_header c7ok.2.other.commit_buffer).operation = SHALL_TOO_BIG ∧
    (decode_header c7ok.2.other.commit_buffer).result = 120 ∧
    (decode_header c7ok.2.other.commit_buffer).flags = SHALL_LOG_NODATA ∧
    (80 : Nat) ≠ 32 := by
  refine ⟨?_, ?_, ?_, ?_, ?_, ?_, ?_, ?_, ?_, ?_, ?_, ?_, ?_, ?_⟩
  all_goals decide

/-- The engine state after appending one bare MOUNT record (with
credentials) to the freshly mounted sbGeo device: an 80-byte record sits
in the commit buffer, data_length = 80, committed = 0. -/
def c6_state : FsInfo :=
  (append_logs geo_state SHALL_MOUNT 0 SHALL_LOG_NODATA creds0 [] [] []
    ts1).2

/-- C6 counterexample: draining into a 40-byte buffer when the first
record is 80 bytes long returns -EFBIG, a negative error, not the
accumulated byte count 0 that the claim describes; the cursor is
restored. -/
theorem C6_counterexample :
    Reachable c6_state ∧
    HEADER_SIZE ≤ 40 ∧
    (get_log_devheader c6_state).1 = 80 ∧
    (shall_bin_logs c6_state 40 ts1).1 = -EFBIG ∧
    ¬ (shall_bin_logs c6_state 40 ts1).1 = 0 ∧
    (shall_bin_logs c6_state 40 ts1).2.read = c6_state.read := by
  refine ⟨Reachable.append geo_state SHALL_MOUNT 0 SHALL_LOG_NODATA creds0
    [] [] [] ts1 (Reachable.mount optsDrop sbGeo devZero ts0 4329472 0
      sbGeo_valid (by decide)), ?_, ?_, ?_, ?_, ?_⟩
  all_goals decide

/-- c6_state with a second bare MOUNT record appended: two 80-byte
records, data_length = 160. -/
def c6b_state : FsInfo :=
  (append_logs c6_state SHALL_MOUNT 0 SHALL_LOG_NODATA creds0 [] [] []
    ts1).2

theorem C6_nofit_restores_witness :
    ((shall_bin_logs c6_state 40 ts1).1 = -EFBIG ∧
      (shall_bin_logs c6_state 40 ts1).2.read = c6_state.read) ∧
    ((shall_bin_logs c6b_state 120 ts1).1 =
        ((bin_loop c6b_state 120 0 (120 + 1)).2.1 : Int) ∧
      (shall_bin_logs c6b_state 120 ts1).2 =
        shall_log_recovery (bin_loop c6b_state 120 0 (120 + 1)).1 ts1 ∧
      ∃ g, Delivered c6b_state ((bin_loop c6b_state 120 0 (120 + 1)).2.1)
          g ∧
        (bin_loop c6b_state 120 0 (120 + 1)).1.read = g.read) :=
  ⟨(C6_nofit_restores c6_state 40 ts1).2.1 (by decide) (by decide)
      (by decide),
    (C6_nofit_restores c6b_state 120 ts1).2.2 (-EFBIG) (by decide)
      (by decide) (by decide)⟩

/-- c6_state after its first commit: the 80-byte record flushed to the
device. -/
def c8_s1 : FsInfo := (shall_write_data c6_state 2 ts1).2

/-- C8 counterexample: committing twice with no intervening append bumps
version only once; the second commit leaves version, last_sb_written and
the superblock write log unchanged, while the claim requires each call
to bump version by 1 and rotate last_sb_written. -/
theorem C8_counterexample :
    Reachable c8_s1 ∧
    c8_s1.other.version = c6_state.other.version + 1 ∧
    (shall_write_data c8_s1 2 ts1).2.other.version = c8_s1.other.version ∧
    ¬ (shall_write_data c8_s1 2 ts1).2.other.version =
        c8_s1.other.version + 1 ∧
    (shall_write_data c8_s1 2 ts1).2.sb_writes = c8_s1.sb_writes ∧
    (shall_write_data c8_s1 2 ts1).2.other.last_sb_written =
      c8_s1.other.last_sb_written := by
  refine ⟨Reachable.write_data c6_state 2 ts1 (Reachable.append geo_state
    SHALL_MOUNT 0 SHALL_LOG_NODATA creds0 [] [] [] ts1
    (Reachable.mount optsDrop sbGeo devZero ts0 4329472 0 sbGeo_valid
      (by decide))), ?_, ?_, ?_, ?_, ?_⟩
  all_goals decide

theorem C8_commit_idempotent_witness :
    (shall_write_data c6_state 2 ts1).2.read.committed ≥
      (shall_write_data c6_state 2 ts1).2.read.data_length ∧
    (shall_write_data c6_state 2 ts1).2.read.buffer_read = 0 ∧
    (shall_write_data c6_state 2 ts1).2.read.buffer_written = 0 ∧
    (shall_write_data (shall_write_data c6_state 2 ts1).2 2 ts1).2.read =
      (shall_write_data c6_state 2 ts1).2.read ∧
    (shall_write_data (shall_write_data c6_state 2 ts1).2 2 ts1).2.other =
      { (shall_write_data c6_state 2 ts1).2.other with
          last_commit := ts1.sec } ∧
    (shall_write_data (shall_write_data c6_state 2 ts1).2 2
        ts1).2.sb_writes =
      (shall_write_data c6_state 2 ts1).2.sb_writes ∧
    (shall_write_data (shall_write_data c6_state 2 ts1).2 2 ts1).2.lq =
      (shall_write_data c6_state 2 ts1).2.lq ∧
    (c6_state.read.committed < c6_state.read.data_length →
      (shall_write_data c6_state 2 ts1).2.other.version =
        c6_state.other.version + 1 ∧
      ∃ k, (shall_write_data c6_state 2 ts1).2.sb_writes =
          k :: c6_state.sb_writes ∧
        1 ≤ k ∧ k < c6_state.ro.num_superblocks) ∧
    (c6_state.read.committed ≥ c6_state.read.data_length →
      (shall_write_data c6_state 2 ts1).2 =
        { c6_state with
            other.last_commit := ts1.sec
            read.buffer_read := 0
            read.buffer_written := 0 }) :=
  C8_commit_idempotent c6_state 2 2 ts1 ts1
    (by refine ⟨?_, ?_, ?_, ?_, ?_⟩ <;> decide) (by decide) (by decide)
    (by decide) (by decide)

/-- sbBase with the journal completely full: data_length = max_length =
data_space. -/
def sbFullBase : DevSuper :=
  { sbBase with data_length := 4292608, max_length := 4292608 }

def sbFullChecksum : Nat := checksum_super sbFullBase

def sbFull : DevSuper := { sbFullBase with checksum := sbFullChecksum }

theorem sbFull_checkbytes :
    devsuper_checkbytes sbFull = devsuper_checkbytes sbFullBase :=
  checkbytes_ext _ _ rfl rfl rfl rfl rfl rfl rfl rfl rfl rfl rfl rfl rfl
    rfl rfl

theorem sbFull_checksum_val : sbFull.checksum = sbFullChecksum := by
  rw [sbFull]

theorem sbFull_checksum : checksum_super sbFull = sbFull.checksum := by
  rw [checksum_super, sbFull_checkbytes, sbFull_checksum_val,
    sbFullChecksum, checksum_super]

theorem sbFull_valid :
    shall_read_superblock_valid sbFull 4329472 0 = true := by
  rw [shall_read_superblock_valid, decide_eq_true_eq]
  exact ⟨sbFull_checksum, by decide⟩

/-- The engine state after mounting the completely full sbFull device. -/
def full_state : FsInfo := mount_state optsDrop sbFull devZero ts0

/-- The first append dropped on the full journal. -/
def c4r : Int × FsInfo :=
  append_logs full_state SHALL_MOUNT 0 SHALL_LOG_NODATA creds0 [] [] []
    ts1

/-- C4 counterexample: on the freshly mounted full journal the very
first drop appends no OVERFLOW marker although num_dropped was 0: the
reserved slot check logsize(32) + data_length ≤ data_space fails when
data_length = data_space, so the source skips the marker; data_length,
buffer_written and the logged count stay unchanged while the append
still returns success and counts the drop. -/
theorem C4_counterexample :
    Reachable full_state ∧
    full_state.lq.num_dropped = 0 ∧
    IS_DROP full_state = true ∧
    logsize full_state.ro.log_alignment HEADER_SIZE +
      (append_size full_state.ro.log_alignment
        (SHALL_LOG_NODATA ||| SHALL_LOG_CREDS) 0 0 0).1 +
      full_state.read.data_length > full_state.ro.data_space ∧
    c4r.1 = 0 ∧
    c4r.2.lq.num_dropped = 1 ∧
    c4r.2.read.data_length = full_state.read.data_length ∧
    c4r.2.read.buffer_written = 0 ∧
    c4r.2.other.logged = 0 := by
  refine ⟨Reachable.mount optsDrop sbFull devZero ts0 4329472 0
    sbFull_valid (by decide), ?_, ?_, ?_, ?_, ?_, ?_, ?_, ?_⟩
  all_goals decide

theorem C4_drop_overflow_witness :
    (append_logs full_state SHALL_MOUNT 0 SHALL_LOG_NODATA creds0 [] [] []
        ts1).1 = 0 ∧
    (append_logs full_state SHALL_MOUNT 0 SHALL_LOG_NODATA creds0 [] [] []
        ts1).2.lq.num_dropped = full_state.lq.num_dropped + 1 ∧
    (append_logs full_state SHALL_MOUNT 0 SHALL_LOG_NODATA creds0 [] [] []
        ts1).2.lq.extra_space = full_state.lq.extra_space +
      (append_size full_state.ro.log_alignment
        (SHALL_LOG_NODATA ||| SHALL_LOG_CREDS)
        (List.length ([] : List Nat)) (List.length ([] : List Nat))
        (List.length ([] : List Nat))).1 ∧
    (append_logs full_state SHALL_MOUNT 0 SHALL_LOG_NODATA creds0 [] [] []
        ts1).2.read.data_length = full_state.read.data_length +
      (if full_state.lq.num_dropped = 0 ∧
          logsize full_state.ro.log_alignment HEADER_SIZE +
            full_state.read.data_length ≤ full_state.ro.data_space
        then logsize full_state.ro.log_alignment HEADER_SIZE else 0) ∧
    (append_logs full_state SHALL_MOUNT 0 SHALL_LOG_NODATA creds0 [] [] []
        ts1).2.other.logged = full_state.other.logged +
      (if full_state.lq.num_dropped = 0 ∧
          logsize full_state.ro.log_alignment HEADER_SIZE +
            full_state.read.data_length ≤ full_state.ro.data_space
        then 1 else 0) :=
  C4_drop_overflow full_state SHALL_MOUNT 0 SHALL_LOG_NODATA creds0 [] []
    [] ts1 (by refine ⟨?_, ?_, ?_, ?_, ?_⟩ <;> decide) (by decide)
    (by decide) (by decide) (by decide) (by decide)

/-- A quiescent engine state which has dropped three records awaiting
240 bytes of space. -/
def c5_state : FsInfo :=
  { options := optsDrop
    ro :=
      { device_size := 4329472, data_space := 4292608,
        num_superblocks := 9, log_alignment := 8, sb_flags := 3,
        maxptr := geoMaxptr }
    read :=
      { data_start := 0, data_length := 0, committed := 0,
        startptr := shall_calculate_block 0 9,
        commitptr := shall_calculate_block 0 9,
        buffer_written := 0, buffer_read := 0 }
    other :=
      { last_commit := 1, last_sb_written := 7, max_length := 0,
        version := 2, logged := 0, commit_buffer := [] }
    lq := { num_dropped := 3, extra_space := 240 }
    device := devZero
    sb_writes := [] }

theorem C5_recover_marker_witness :
    (shall_log_recovery c5_state ts1).lq.num_dropped = 0 ∧
    (shall_log_recovery c5_state ts1).lq.extra_space = 0 ∧
    (shall_log_recovery c5_state ts1).read.data_length =
      c5_state.read.data_length +
        logsize c5_state.ro.log_alignment (HEADER_SIZE + 8) ∧
    (shall_log_recovery c5_state ts1).other.logged =
      c5_state.other.logged + 1 ∧
    (∃ pre, (shall_log_recovery c5_state ts1).other.commit_buffer =
      pre ++
        header_bytes (mk_header
          (logsize c5_state.ro.log_alignment (HEADER_SIZE + 8))
          SHALL_RECOVER ts1 (c5_state.lq.num_dropped : Int)
          SHALL_LOG_SIZE) ++
        le64 c5_state.lq.extra_space ++
        List.replicate (logsize c5_state.ro.log_alignment
          (HEADER_SIZE + 8) - (HEADER_SIZE + 8)) 0) ∧
    (∀ (g : FsInfo) (space : Nat), 1 ≤ space →
      (bin_loop g space 0 (space + 1)).2.2 = none →
      (shall_bin_logs g space ts1).2 =
        shall_log_recovery (bin_loop g space 0 (space + 1)).1 ts1) ∧
    (∀ (g : FsInfo) (skip : Nat), 1 ≤ skip →
      (delete_loop g skip 0 (skip + 1)).2.2 = none →
      (shall_delete_logs g skip ts1).2 =
        shall_log_recovery (delete_loop g skip 0 (skip + 1)).1 ts1) :=
  C5_recover_marker c5_state ts1
    (by refine ⟨?_, ?_, ?_, ?_, ?_⟩ <;> decide) (by decide) (by decide)
    (by decide) (by decide)

end Shallfs
